import Mathlib

/-!
# Tracker-request aggregation and privacy-state classification

A shallow embedding of `shared/js/browser/utils/request-details.js`:
the bucket aggregator `AggregatedCompanyResponseData`, the leaf records
`AggregateCompanyData` and `TrackerUrl`, the router `createRequestDetails`
and the state derivation `RequestDetails.state`.

JavaScript objects used as string-keyed records are association lists that
hold the own properties in creation order; property reads additionally see
the members every plain object inherits from `Object.prototype`.  A thrown
exception is the `error` case of `Except`.
-/

namespace PrivacyDashboard

/-! ## JavaScript runtime notions used by the source -/

/-- Exceptions the modelled code can raise. -/
inductive JsError where
  | typeError : JsError
  deriving DecidableEq, Repr

/-- Property names that every plain object (an object literal, or the result of
JSON parsing) inherits from `Object.prototype`. -/
def objectPrototypeKeys : List String :=
  ["constructor", "__defineGetter__", "__defineSetter__", "hasOwnProperty",
   "__lookupGetter__", "__lookupSetter__", "isPrototypeOf", "propertyIsEnumerable",
   "toString", "valueOf", "__proto__", "toLocaleString"]

/-- Result of the property read `o[k]` on a plain object whose own values have type `α`:
an own value, an inherited member of `Object.prototype`, or `undefined`. -/
inductive Lookup (α : Type) where
  | own (v : α) : Lookup α
  | inherited : Lookup α
  | undefined : Lookup α
  deriving DecidableEq, Repr

/-- The read `o[k]`: own properties first, then the prototype. -/
def propGet {α : Type} (o : List (String × α)) (k : String) : Lookup α :=
  match o.lookup k with
  | some v => Lookup.own v
  | none => if k ∈ objectPrototypeKeys then Lookup.inherited else Lookup.undefined

/-- Truthiness of a read `o[k]` whose own values are objects: own objects and the
inherited members (functions, and `Object.prototype` itself for `__proto__`) are
truthy, `undefined` is falsy. -/
def Lookup.truthy {α : Type} : Lookup α → Bool
  | Lookup.own _ => true
  | Lookup.inherited => true
  | Lookup.undefined => false

/-- Replace the value stored under the own key `k`, keeping its position. -/
def replaceOwn {α : Type} (o : List (String × α)) (k : String) (v : α) : List (String × α) :=
  o.map (fun p => if p.1 = k then (k, v) else p)

/-- The assignment `o[k] = v` on a plain object, `v` an object.  An existing own key
keeps its position and gets the new value; otherwise assigning to `__proto__` runs the
inherited setter, which swaps the prototype and creates no own property; any other new
key is appended.  (The source never reads a record again after assigning its
`__proto__`, so the swapped prototype itself is not tracked.) -/
def propSet {α : Type} (o : List (String × α)) (k : String) (v : α) : List (String × α) :=
  if (o.lookup k).isSome then replaceOwn o k v
  else if k = "__proto__" then o
  else o ++ [(k, v)]

/-- Truthiness of an optional string member: absent (`undefined`) and the empty
string are falsy. -/
def strTruthy : Option String → Bool
  | some s => decide (s ≠ "")
  | none => false

/-- Character-level body of `replace(/^www\./, '')`. -/
def dropWww : List Char → List Char
  | 'w' :: 'w' :: 'w' :: '.' :: rest => rest
  | cs => cs

/-- The call `s.replace(/^www\./, '')`: one leading `www.` is removed. -/
def replaceLeadingWww (s : String) : String := ⟨dropWww s.data⟩

/-- Functions the source calls but which live outside `request-details.js`:
`removeTLD` and `normalizeCompanyName` are imported from
`ui/models/mixins/normalize-company-name.es6.js`, and `urlHostname u` stands for
`new URL(u).hostname`, with `none` when the `URL` constructor throws. -/
structure Collaborators where
  removeTLD : String → String
  normalizeCompanyName : String → String
  urlHostname : String → Option String

/-! ## Data model -/

/-- The `allowed` member of a request state. -/
structure AllowedState where
  reason : String
  deriving DecidableEq, Repr

/-- The `state` object of a request: `blocked` records whether the object has a
`blocked` member, `allowed` holds the `allowed` member when there is one. -/
structure RequestState where
  blocked : Bool
  allowed : Option AllowedState
  deriving DecidableEq, Repr

/-- A `DetectedRequest` (one request fact).  Optional members are `none` when absent;
`prevalence` is a finite number, which the code only copies and compares. -/
structure DetectedRequest where
  url : String
  state : RequestState
  entityName : Option String
  eTLDplus1 : Option String
  ownerName : Option String
  prevalence : Option ℚ
  category : Option String
  deriving DecidableEq, Repr

/-- Class `TrackerUrl` (lines 395-404). -/
structure TrackerUrl where
  url : String
  category : Option String
  deriving DecidableEq, Repr

/-- Class `AggregateCompanyData` (lines 370-393); `urls` is the record
`Record<string, TrackerUrl>`. -/
structure AggregateCompanyData where
  name : Option String
  displayName : String
  prevalence : ℚ
  normalizedName : String
  urls : List (String × TrackerUrl)
  deriving DecidableEq, Repr

/-- Class `AggregatedCompanyResponseData` (lines 164-209); `entities` is the record
`Record<string, AggregateCompanyData>`. -/
structure AggregatedCompanyResponseData where
  entitiesCount : Nat
  requestCount : Nat
  entities : List (String × AggregateCompanyData)
  deriving DecidableEq, Repr

/-- The object literal `allowed` of `RequestDetails` (lines 237-243). -/
structure AllowedBuckets where
  adClickAttribution : AggregatedCompanyResponseData
  ownedByFirstParty : AggregatedCompanyResponseData
  ruleException : AggregatedCompanyResponseData
  protectionDisabled : AggregatedCompanyResponseData
  otherThirdPartyRequest : AggregatedCompanyResponseData
  deriving DecidableEq, Repr

/-- Class `RequestDetails` (lines 233-250). -/
structure RequestDetails where
  surrogates : List String
  all : AggregatedCompanyResponseData
  blocked : AggregatedCompanyResponseData
  allowed : AllowedBuckets
  deriving DecidableEq, Repr

/-! ## Leaf records -/

/-- The constructor `new AggregateCompanyData(name, displayName, prevalence)`. -/
def AggregateCompanyData.new (env : Collaborators) (name : Option String)
    (displayName : String) (prevalence : ℚ) : AggregateCompanyData :=
  { name := name
    displayName := displayName
    prevalence := prevalence
    normalizedName := env.normalizeCompanyName displayName
    urls := [] }

/-- The method `addUrl(url, category)`: `this.urls[url] = new TrackerUrl(url, category)`. -/
def AggregateCompanyData.addUrl (self : AggregateCompanyData) (url : String)
    (category : Option String) : AggregateCompanyData :=
  { self with urls := propSet self.urls url { url := url, category := category } }

/-! ## Bucket aggregator -/

/-- A bucket as the field initialisers of the class leave it. -/
def AggregatedCompanyResponseData.fresh : AggregatedCompanyResponseData :=
  { entitiesCount := 0, requestCount := 0, entities := [] }

/-- Lines 176-184 of `addRequest`: the hostname of the request url, or the raw url
when it does not parse, with one leading `www.` removed. -/
def urlHostnameOf (env : Collaborators) (request : DetectedRequest) : String :=
  let hostname :=
    match env.urlHostname request.url with
    | some h => h
    | none => request.url
  replaceLeadingWww hostname

/-- Lines 183-190 of `addRequest`: the key `displayName` under which a request is
aggregated. -/
def displayNameOf (env : Collaborators) (request : DetectedRequest) : String :=
  if strTruthy request.entityName then
    env.removeTLD (request.entityName.getD "")
  else if strTruthy request.eTLDplus1 then
    request.eTLDplus1.getD ""
  else
    request.url

/-- The method `addRequest(request)`.  The entry is created when the read
`this.entities[displayName]` is falsy; `addUrl` is then called on whatever the read
returns, which raises a `TypeError` when that is not an own entry (an inherited
member has no `addUrl`).  The raise precedes every write of the method. -/
def AggregatedCompanyResponseData.addRequest (env : Collaborators)
    (self : AggregatedCompanyResponseData) (request : DetectedRequest) :
    Except JsError AggregatedCompanyResponseData :=
  let urlHostname := urlHostnameOf env request
  let displayName := displayNameOf env request
  let entities1 :=
    if (propGet self.entities displayName).truthy then self.entities
    else propSet self.entities displayName
      (AggregateCompanyData.new env request.ownerName displayName (request.prevalence.getD 0))
  match propGet entities1 displayName with
  | Lookup.own entity =>
    let entities2 := replaceOwn entities1 displayName (entity.addUrl urlHostname request.category)
    Except.ok
      { entities := entities2
        entitiesCount := entities2.length
        requestCount := self.requestCount + 1 }
  | Lookup.inherited => Except.error JsError.typeError
  | Lookup.undefined => Except.error JsError.typeError

/-! ## The twelve states -/

namespace states

def protectionsOn : String := "protectionsOn"
def protectionsOn_blocked : String := "protectionsOn_blocked"
def protectionsOn_blocked_allowedTrackers : String := "protectionsOn_blocked_allowedTrackers"
def protectionsOn_blocked_allowedNonTrackers : String :=
  "protectionsOn_blocked_allowedNonTrackers"
def protectionsOn_blocked_allowedTrackers_allowedNonTrackers : String :=
  "protectionsOn_blocked_allowedTrackers_allowedNonTrackers"
def protectionsOn_allowedTrackers : String := "protectionsOn_allowedTrackers"
def protectionsOn_allowedNonTrackers : String := "protectionsOn_allowedNonTrackers"
def protectionsOn_allowedTrackers_allowedNonTrackers : String :=
  "protectionsOn_allowedTrackers_allowedNonTrackers"
def protectionsOff : String := "protectionsOff"
def protectionsOff_allowedTrackers : String := "protectionsOff_allowedTrackers"
def protectionsOff_allowedNonTrackers : String := "protectionsOff_allowedNonTrackers"
def protectionsOff_allowedTrackers_allowedNonTrackers : String :=
  "protectionsOff_allowedTrackers_allowedNonTrackers"

end states

/-- The values of the object `states` (lines 215-228), in declaration order. -/
def statesValues : List String :=
  [states.protectionsOn, states.protectionsOn_blocked,
   states.protectionsOn_blocked_allowedTrackers,
   states.protectionsOn_blocked_allowedNonTrackers,
   states.protectionsOn_blocked_allowedTrackers_allowedNonTrackers,
   states.protectionsOn_allowedTrackers, states.protectionsOn_allowedNonTrackers,
   states.protectionsOn_allowedTrackers_allowedNonTrackers,
   states.protectionsOff, states.protectionsOff_allowedTrackers,
   states.protectionsOff_allowedNonTrackers,
   states.protectionsOff_allowedTrackers_allowedNonTrackers]

/-! ## Router and derived reads -/

/-- The object literal `allowed` with five fresh buckets. -/
def AllowedBuckets.fresh : AllowedBuckets :=
  { adClickAttribution := AggregatedCompanyResponseData.fresh
    ownedByFirstParty := AggregatedCompanyResponseData.fresh
    ruleException := AggregatedCompanyResponseData.fresh
    protectionDisabled := AggregatedCompanyResponseData.fresh
    otherThirdPartyRequest := AggregatedCompanyResponseData.fresh }

/-- Own property names of `allowed`. -/
def allowedKeys : List String :=
  ["adClickAttribution", "ownedByFirstParty", "ruleException", "protectionDisabled",
   "otherThirdPartyRequest"]

/-- The test `reason in output.allowed`: own and inherited property names count. -/
def inAllowed (reason : String) : Bool :=
  decide (reason ∈ allowedKeys) || decide (reason ∈ objectPrototypeKeys)

/-- The own bucket stored under a property name of `allowed`, if any. -/
def AllowedBuckets.get? (self : AllowedBuckets) (reason : String) :
    Option AggregatedCompanyResponseData :=
  if reason = "adClickAttribution" then some self.adClickAttribution
  else if reason = "ownedByFirstParty" then some self.ownedByFirstParty
  else if reason = "ruleException" then some self.ruleException
  else if reason = "protectionDisabled" then some self.protectionDisabled
  else if reason = "otherThirdPartyRequest" then some self.otherThirdPartyRequest
  else none

/-- The bucket stored under an own property name of `allowed`, after its in-place
mutation by `addRequest`. -/
def AllowedBuckets.set (self : AllowedBuckets) (reason : String)
    (b : AggregatedCompanyResponseData) : AllowedBuckets :=
  if reason = "adClickAttribution" then { self with adClickAttribution := b }
  else if reason = "ownedByFirstParty" then { self with ownedByFirstParty := b }
  else if reason = "ruleException" then { self with ruleException := b }
  else if reason = "protectionDisabled" then { self with protectionDisabled := b }
  else if reason = "otherThirdPartyRequest" then { self with otherThirdPartyRequest := b }
  else self

/-- The constructor `new RequestDetails(surrogates)`. -/
def RequestDetails.new (surrogates : List String) : RequestDetails :=
  { surrogates := surrogates
    all := AggregatedCompanyResponseData.fresh
    blocked := AggregatedCompanyResponseData.fresh
    allowed := AllowedBuckets.fresh }

/-- Lines 129-134: the `allowed` step of the loop body of `createRequestDetails`.
When `reason in output.allowed` holds through an inherited name, the member read
has no `addRequest` and the call raises a `TypeError`. -/
def routeAllowed (env : Collaborators) (output : RequestDetails) (request : DetectedRequest) :
    Except JsError RequestDetails :=
  match request.state.allowed with
  | none => Except.ok output
  | some a =>
    if inAllowed a.reason then
      match output.allowed.get? a.reason with
      | some bucket =>
        match bucket.addRequest env request with
        | Except.ok b => Except.ok { output with allowed := output.allowed.set a.reason b }
        | Except.error e => Except.error e
      | none => Except.error JsError.typeError
    else Except.ok output

/-- Lines 123-126: the `blocked` step of the loop body. -/
def routeBlocked (env : Collaborators) (output : RequestDetails) (request : DetectedRequest) :
    Except JsError RequestDetails :=
  if request.state.blocked then
    match output.blocked.addRequest env request with
    | Except.ok b => Except.ok { output with blocked := b }
    | Except.error e => Except.error e
  else Except.ok output

/-- Lines 120-134: one iteration of the loop of `createRequestDetails`. -/
def routeRequest (env : Collaborators) (output : RequestDetails) (request : DetectedRequest) :
    Except JsError RequestDetails :=
  match output.all.addRequest env request with
  | Except.error e => Except.error e
  | Except.ok a =>
    match routeBlocked env { output with all := a } request with
    | Except.error e => Except.error e
    | Except.ok output1 => routeAllowed env output1 request

/-- The loop of `createRequestDetails` from a given `output`. -/
def routeAll (env : Collaborators) :
    RequestDetails → List DetectedRequest → Except JsError RequestDetails
  | output, [] => Except.ok output
  | output, request :: rest =>
    match routeRequest env output request with
    | Except.error e => Except.error e
    | Except.ok output1 => routeAll env output1 rest

/-- The function `createRequestDetails(requests, installedSurrogates)` (lines 117-137). -/
def createRequestDetails (env : Collaborators) (requests : List DetectedRequest)
    (installedSurrogates : List String) : Except JsError RequestDetails :=
  routeAll env (RequestDetails.new installedSurrogates) requests

/-- The method `blockedCount()`. -/
def RequestDetails.blockedCount (self : RequestDetails) : Nat :=
  self.blocked.entitiesCount

/-- The method `allowedSpecialCount()`. -/
def RequestDetails.allowedSpecialCount (self : RequestDetails) : Nat :=
  self.allowed.adClickAttribution.entitiesCount +
  self.allowed.ownedByFirstParty.entitiesCount +
  self.allowed.ruleException.entitiesCount +
  self.allowed.protectionDisabled.entitiesCount

/-- The method `allowedNonSpecialCount()`. -/
def RequestDetails.allowedNonSpecialCount (self : RequestDetails) : Nat :=
  self.allowed.otherThirdPartyRequest.entitiesCount

/-- The method `state(protectionsEnabled)` (lines 328-367). -/
def RequestDetails.state (self : RequestDetails) (protectionsEnabled : Bool) : String :=
  if !protectionsEnabled then
    if self.allowedSpecialCount > 0 ∧ self.allowedNonSpecialCount > 0 then
      states.protectionsOff_allowedTrackers_allowedNonTrackers
    else if self.allowedNonSpecialCount > 0 then
      states.protectionsOff_allowedNonTrackers
    else if self.allowedSpecialCount > 0 then
      states.protectionsOff_allowedTrackers
    else
      states.protectionsOff
  else
    if self.blockedCount > 0 then
      if self.allowedSpecialCount > 0 ∧ self.allowedNonSpecialCount > 0 then
        states.protectionsOn_blocked_allowedTrackers_allowedNonTrackers
      else if self.allowedSpecialCount > 0 then
        states.protectionsOn_blocked_allowedTrackers
      else if self.allowedNonSpecialCount > 0 then
        states.protectionsOn_blocked_allowedNonTrackers
      else
        states.protectionsOn_blocked
    else
      if self.allowedSpecialCount > 0 ∧ self.allowedNonSpecialCount > 0 then
        states.protectionsOn_allowedTrackers_allowedNonTrackers
      else if self.allowedSpecialCount > 0 then
        states.protectionsOn_allowedTrackers
      else if self.allowedNonSpecialCount > 0 then
        states.protectionsOn_allowedNonTrackers
      else
        states.protectionsOn

/-! ## Specification-side definitions -/

/-- The decision table of the specification, read row by row from the three signs
`b` (blocked count positive), `s` (special count positive) and `n` (non-special count
positive). -/
def stateDecisionTable (p b s n : Bool) : String :=
  match p, b, s, n with
  | false, _, true, true => "protectionsOff_allowedTrackers_allowedNonTrackers"
  | false, _, false, true => "protectionsOff_allowedNonTrackers"
  | false, _, true, false => "protectionsOff_allowedTrackers"
  | false, _, false, false => "protectionsOff"
  | true, true, true, true => "protectionsOn_blocked_allowedTrackers_allowedNonTrackers"
  | true, true, true, false => "protectionsOn_blocked_allowedTrackers"
  | true, true, false, true => "protectionsOn_blocked_allowedNonTrackers"
  | true, true, false, false => "protectionsOn_blocked"
  | true, false, true, true => "protectionsOn_allowedTrackers_allowedNonTrackers"
  | true, false, true, false => "protectionsOn_allowedTrackers"
  | true, false, false, true => "protectionsOn_allowedNonTrackers"
  | true, false, false, false => "protectionsOn"

/-- One call `b.addRequest(request)` by a caller that goes on after a call that
raises: such a call leaves the bucket as it was, because in `addRequest` the raise
precedes every write. -/
def addRequestCall (env : Collaborators) (b : AggregatedCompanyResponseData)
    (request : DetectedRequest) : AggregatedCompanyResponseData :=
  match b.addRequest env request with
  | Except.ok b1 => b1
  | Except.error _ => b

/-- The bucket after the calls `addRequest(r)`, `r` running through `requests` in
order. -/
def addRequestCalls (env : Collaborators) (b : AggregatedCompanyResponseData)
    (requests : List DetectedRequest) : AggregatedCompanyResponseData :=
  requests.foldl (addRequestCall env) b

/-- The first request of a sequence whose naming-rule key is `k`. -/
def firstWithKey (env : Collaborators) (requests : List DetectedRequest) (k : String) :
    Option DetectedRequest :=
  requests.find? (fun r => decide (displayNameOf env r = k))

/-- What is known of a bucket `S` that started fresh and received the calls
`addRequest(r)` for `r` in `calls`: the counters agree with the record, no own key is
an inherited name, every entity carries the identity of the first request with its
key, and every request whose key is not an inherited name has an entity. -/
structure Reached (env : Collaborators) (calls : List DetectedRequest)
    (S : AggregatedCompanyResponseData) : Prop where
  count : S.entitiesCount = S.entities.length
  nodup : (S.entities.map Prod.fst).Nodup
  requests : S.requestCount =
    (calls.filter (fun r => decide (displayNameOf env r ∉ objectPrototypeKeys))).length
  entry : ∀ k e, S.entities.lookup k = some e →
    k ∉ objectPrototypeKeys ∧ ∃ r, firstWithKey env calls k = some r ∧
      e.name = r.ownerName ∧ e.prevalence = r.prevalence.getD 0 ∧
      e.displayName = k ∧ e.normalizedName = env.normalizeCompanyName k
  seen : ∀ r ∈ calls, displayNameOf env r ∉ objectPrototypeKeys →
    displayNameOf env r ∈ S.entities.map Prod.fst

/-- The test whether the `allowed` member of a request names the reason `key`. -/
def hasReason (key : String) (r : DetectedRequest) : Bool :=
  decide (r.state.allowed.map (fun a => a.reason) = some key)

/-- The effect of one loop iteration of `createRequestDetails` written as the calls it
makes: `all` always, `blocked` when the state has a `blocked` member, and the bucket of
`allowed` named by the reason of the `allowed` member. -/
def routeCall (env : Collaborators) (o : RequestDetails) (r : DetectedRequest) :
    RequestDetails :=
  { surrogates := o.surrogates
    all := addRequestCall env o.all r
    blocked := if r.state.blocked then addRequestCall env o.blocked r else o.blocked
    allowed :=
      { adClickAttribution :=
          if hasReason "adClickAttribution" r then
            addRequestCall env o.allowed.adClickAttribution r
          else o.allowed.adClickAttribution
        ownedByFirstParty :=
          if hasReason "ownedByFirstParty" r then
            addRequestCall env o.allowed.ownedByFirstParty r
          else o.allowed.ownedByFirstParty
        ruleException :=
          if hasReason "ruleException" r then addRequestCall env o.allowed.ruleException r
          else o.allowed.ruleException
        protectionDisabled :=
          if hasReason "protectionDisabled" r then
            addRequestCall env o.allowed.protectionDisabled r
          else o.allowed.protectionDisabled
        otherThirdPartyRequest :=
          if hasReason "otherThirdPartyRequest" r then
            addRequestCall env o.allowed.otherThirdPartyRequest r
          else o.allowed.otherThirdPartyRequest } }

/-- The requests on which no call of the loop of `createRequestDetails` raises: neither
the naming-rule key nor the reason of an `allowed` member is an inherited name. -/
def Routable (env : Collaborators) (r : DetectedRequest) : Prop :=
  displayNameOf env r ∉ objectPrototypeKeys ∧
  ∀ a, r.state.allowed = some a → a.reason ∉ objectPrototypeKeys

/-- What is known of `output` once the loop of `createRequestDetails` has processed the
requests `done`: every bucket received exactly the requests routed to it, in order, and
no call raised. -/
structure Routed (env : Collaborators) (surrogates : List String)
    (done : List DetectedRequest) (output : RequestDetails) : Prop where
  routable : ∀ r ∈ done, Routable env r
  surrogates : output.surrogates = surrogates
  all : output.all = addRequestCalls env AggregatedCompanyResponseData.fresh done
  blocked : output.blocked = addRequestCalls env AggregatedCompanyResponseData.fresh
    (done.filter (fun r => r.state.blocked))
  adClickAttribution : output.allowed.adClickAttribution =
    addRequestCalls env AggregatedCompanyResponseData.fresh
      (done.filter (hasReason "adClickAttribution"))
  ownedByFirstParty : output.allowed.ownedByFirstParty =
    addRequestCalls env AggregatedCompanyResponseData.fresh
      (done.filter (hasReason "ownedByFirstParty"))
  ruleException : output.allowed.ruleException =
    addRequestCalls env AggregatedCompanyResponseData.fresh
      (done.filter (hasReason "ruleException"))
  protectionDisabled : output.allowed.protectionDisabled =
    addRequestCalls env AggregatedCompanyResponseData.fresh
      (done.filter (hasReason "protectionDisabled"))
  otherThirdPartyRequest : output.allowed.otherThirdPartyRequest =
    addRequestCalls env AggregatedCompanyResponseData.fresh
      (done.filter (hasReason "otherThirdPartyRequest"))

/-! ## Enumeration order and sorted reads -/

/-- Value of a string of decimal digits. -/
def decimalValue (cs : List Char) : Nat :=
  cs.foldl (fun n c => 10 * n + (c.toNat - 48)) 0

/-- The array index a property key denotes, if any: the key is the canonical decimal
form (digits only, no leading zero except for the key 0 itself) of an integer below
4294967295. -/
def arrayIndex? (k : String) : Option Nat :=
  if k.data ≠ [] ∧ k.data.all Char.isDigit = true ∧
      (k.data.head? ≠ some '0' ∨ k.data.length = 1) ∧ decimalValue k.data < 4294967295 then
    some (decimalValue k.data)
  else none

/-- The digit strings that are canonical decimal forms: not empty, digits only, and no
leading zero except in the one-digit string. -/
def CanonicalDigits (cs : List Char) : Prop :=
  cs ≠ [] ∧ cs.all Char.isDigit = true ∧ (cs.head? ≠ some '0' ∨ cs.length = 1)

/-- The order of two own entries whose keys are array indices. -/
def indexLe {α : Type} (p q : String × α) : Prop :=
  (arrayIndex? p.1).getD 0 ≤ (arrayIndex? q.1).getD 0

instance indexLeDecidable {α : Type} : DecidableRel (indexLe : String × α → String × α → Prop) :=
  fun p q => inferInstanceAs (Decidable ((arrayIndex? p.1).getD 0 ≤ (arrayIndex? q.1).getD 0))

instance indexLeTotal {α : Type} : IsTotal (String × α) indexLe :=
  ⟨fun p q => le_total ((arrayIndex? p.1).getD 0) ((arrayIndex? q.1).getD 0)⟩

instance indexLeTrans {α : Type} : IsTrans (String × α) indexLe :=
  ⟨fun _ _ _ hpq hqr => le_trans hpq hqr⟩

/-- The own entries of a plain object in the order in which `Object.keys`,
`Object.values` and `for ... in` list them: keys that are array indices first, in
ascending numeric order, then the other keys in creation order. -/
def ownEntries {α : Type} (o : List (String × α)) : List (String × α) :=
  List.insertionSort indexLe (o.filter (fun p => (arrayIndex? p.1).isSome)) ++
    o.filter (fun p => (arrayIndex? p.1).isNone)

/-- The call `Object.values(o)`. -/
def objectValues {α : Type} (o : List (String × α)) : List α :=
  (ownEntries o).map Prod.snd

/-- The order the comparator `(a, b) => b.prevalence - a.prevalence` asks for: `a` may
stand before `b` when its prevalence is not smaller. -/
def prevalenceGe (a b : AggregateCompanyData) : Prop :=
  b.prevalence ≤ a.prevalence

instance prevalenceGeDecidable : DecidableRel prevalenceGe :=
  fun a b => inferInstanceAs (Decidable (b.prevalence ≤ a.prevalence))

instance prevalenceGeTotal : IsTotal AggregateCompanyData prevalenceGe :=
  ⟨fun a b => le_total b.prevalence a.prevalence⟩

instance prevalenceGeTrans : IsTrans AggregateCompanyData prevalenceGe :=
  ⟨fun _ _ _ hab hbc => le_trans hbc hab⟩

/-- The call `arr.sort((a, b) => b.prevalence - a.prevalence)`.  `Array.prototype.sort`
is a stable sort, and a stable sort by a consistent comparator has one possible result;
insertion sort computes it. -/
def sortByPrevalence (arr : List AggregateCompanyData) : List AggregateCompanyData :=
  List.insertionSort prevalenceGe arr

/-- The method `sortedByPrevalence()` (lines 206-208). -/
def AggregatedCompanyResponseData.sortedByPrevalence (self : AggregatedCompanyResponseData) :
    List AggregateCompanyData :=
  sortByPrevalence (objectValues self.entities)

/-- The call `this.sortedByPrevalence()` as a step on the bucket: the spread copies the
values into a new array, `sort` reorders that array, and the body assigns nothing to
the bucket or to an entity. -/
def AggregatedCompanyResponseData.sortedByPrevalenceStep
    (self : AggregatedCompanyResponseData) :
    List AggregateCompanyData × AggregatedCompanyResponseData :=
  (self.sortedByPrevalence, self)

/-- The method `blockedCompanyNames()` (lines 302-312). -/
def RequestDetails.blockedCompanyNames (self : RequestDetails) : List String :=
  (sortByPrevalence
    ((objectValues self.blocked.entities).filter
      (fun entity => decide (entity.name ≠ some "unknown")))).map
    (fun entity => entity.displayName)

/-- The method `matches(protectionsEnabled, states)` (lines 318-321). -/
def RequestDetails.matches (self : RequestDetails) (protectionsEnabled : Bool)
    (states : List String) : Bool :=
  states.contains (self.state protectionsEnabled)

/-- The call `this.state(protectionsEnabled)` as a step on the object: the body of
`state` and the three count methods it calls contain no assignment. -/
def RequestDetails.stateStep (self : RequestDetails) (protectionsEnabled : Bool) :
    String × RequestDetails :=
  (self.state protectionsEnabled, self)

/-- The call `this.matches(protectionsEnabled, states)` as a step on the object. -/
def RequestDetails.matchesStep (self : RequestDetails) (protectionsEnabled : Bool)
    (states : List String) : Bool × RequestDetails :=
  ((self.stateStep protectionsEnabled).2.matches protectionsEnabled states,
    (self.stateStep protectionsEnabled).2)

/-- The sum the specification gives for `allowedSpecialCount()`: the entity counts of
the allowed-reason buckets other than `otherThirdPartyRequest`. -/
def specialCountSum (self : RequestDetails) : Nat :=
  (((allowedKeys.filter (fun k => decide (k ≠ "otherThirdPartyRequest"))).filterMap
    self.allowed.get?).map (fun b => b.entitiesCount)).sum

/-- The test whether a request is allowed with one of the four special reasons. -/
def hasSpecialReason (r : DetectedRequest) : Bool :=
  hasReason "adClickAttribution" r || hasReason "ownedByFirstParty" r ||
    hasReason "ruleException" r || hasReason "protectionDisabled" r

/-! ## Ingestion -/

/-- The value `requestDataSchema.parse` returns: the requests and the optional list of
installed surrogates. -/
structure RequestData where
  requests : List DetectedRequest
  installedSurrogates : Option (List String)
  deriving DecidableEq, Repr

/-- Exceptions of `fromJson` and `fromMultiJson`: the `ZodError` that
`requestDataSchema.parse` throws, or an exception raised by `createRequestDetails`. -/
inductive IngestError where
  | zodError : IngestError
  | raised (e : JsError) : IngestError
  deriving DecidableEq, Repr

/-- An outcome of `createRequestDetails` as an outcome of an ingestion function that
calls it last. -/
def passOn : Except JsError RequestDetails → Except IngestError RequestDetails
  | Except.ok r => Except.ok r
  | Except.error e => Except.error (IngestError.raised e)

/-- The function `fromJson(json)` (lines 144-147).  The parameter `parse` stands for
`requestDataSchema.parse`, generated into `schema/__generated__/schema.parsers`, with
`none` when it throws a `ZodError`. -/
def fromJson {Payload : Type} (parse : Payload → Option RequestData) (env : Collaborators)
    (json : Payload) : Except IngestError RequestDetails :=
  match parse json with
  | none => Except.error IngestError.zodError
  | some requestData =>
    passOn (createRequestDetails env requestData.requests
      (requestData.installedSurrogates.getD []))

/-- The loop of `fromMultiJson` (lines 156-160) from given `requests` and
`installedSurrogates`: each input is parsed, which may throw, and its requests and
surrogates are pushed. -/
def fromMultiJsonLoop {Payload : Type} (parse : Payload → Option RequestData) :
    List Payload → List DetectedRequest → List String →
      Option (List DetectedRequest × List String)
  | [], requests, installedSurrogates => some (requests, installedSurrogates)
  | input :: rest, requests, installedSurrogates =>
    match parse input with
    | none => none
    | some requestData =>
      fromMultiJsonLoop parse rest (requests ++ requestData.requests)
        (installedSurrogates ++ requestData.installedSurrogates.getD [])

/-- The function `fromMultiJson(...inputs)` (lines 153-162). -/
def fromMultiJson {Payload : Type} (parse : Payload → Option RequestData)
    (env : Collaborators) (inputs : List Payload) : Except IngestError RequestDetails :=
  match fromMultiJsonLoop parse inputs [] [] with
  | none => Except.error IngestError.zodError
  | some (requests, installedSurrogates) =>
    passOn (createRequestDetails env requests installedSurrogates)

/-- Modelled from the spec: the wire payload of section 6, a JSON object whose members
`requests` and `installedSurrogates` may each be absent.  The schema module is not
part of the sources at hand. -/
structure WirePayload where
  requests : Option (List DetectedRequest)
  installedSurrogates : Option (List String)
  deriving DecidableEq, Repr

/-- Modelled from the spec: `requestDataSchema.parse` on a wire payload.  The member
`requests` is required and `installedSurrogates` is optional. -/
def wireParse (payload : WirePayload) : Option RequestData :=
  match payload.requests with
  | none => none
  | some requests =>
    some { requests := requests, installedSurrogates := payload.installedSurrogates }

/-- The concatenation, in input order, of the requests of parsed payloads. -/
def concatRequests (datas : List RequestData) : List DetectedRequest :=
  (datas.map (fun d => d.requests)).flatten

/-- The concatenation, in input order, of the installed surrogates of parsed payloads,
a payload without the member contributing none. -/
def concatSurrogates (datas : List RequestData) : List String :=
  (datas.map (fun d => match d.installedSurrogates with
    | some l => l
    | none => [])).flatten

/-! ## Summaries and invariants used by the specification -/

/-- Every `TrackerUrl` stored in an entity of the bucket carries the url under which it
is stored. -/
def UrlsKeyed (b : AggregatedCompanyResponseData) : Prop :=
  ∀ k e, b.entities.lookup k = some e → ∀ u t, e.urls.lookup u = some t → t.url = u

/-- Two buckets agree in what a summary reads: the two counters and the set of entity
keys. -/
def SameSummary (b b1 : AggregatedCompanyResponseData) : Prop :=
  b.entitiesCount = b1.entitiesCount ∧ b.requestCount = b1.requestCount ∧
  ∀ k, k ∈ b.entities.map Prod.fst ↔ k ∈ b1.entities.map Prod.fst

/-- Two `RequestDetails` agree in the summary of every bucket. -/
def SameSummaries (o o1 : RequestDetails) : Prop :=
  SameSummary o.all o1.all ∧ SameSummary o.blocked o1.blocked ∧
  SameSummary o.allowed.adClickAttribution o1.allowed.adClickAttribution ∧
  SameSummary o.allowed.ownedByFirstParty o1.allowed.ownedByFirstParty ∧
  SameSummary o.allowed.ruleException o1.allowed.ruleException ∧
  SameSummary o.allowed.protectionDisabled o1.allowed.protectionDisabled ∧
  SameSummary o.allowed.otherThirdPartyRequest o1.allowed.otherThirdPartyRequest

/-! ## Worked examples -/

/-- Stand-ins for the collaborators, used to evaluate the definitions at the concrete
requests below: the values of `removeTLD`, `normalizeCompanyName` and
`new URL(u).hostname` at the strings that occur there. -/
def exampleCollaborators : Collaborators :=
  { removeTLD := fun s => if s = "Acme.com" then "Acme" else s
    normalizeCompanyName := fun s => if s = "Acme" then "acme" else s
    urlHostname := fun u =>
      if u = "https://www.acme.com/pixel.gif" then some "www.acme.com"
      else if u = "https://cdn.acme.com/lib.js" then some "cdn.acme.com"
      else if u = "https://tracker.example/p.gif" then some "tracker.example"
      else if u = "https://tracker.example/q.gif" then some "tracker.example"
      else if u = "https://cdn.example.net/a.js" then some "cdn.example.net"
      else if u = "http://constructor/api" then some "constructor"
      else none }

/-- A blocked request of the entity `Acme.com` with prevalence 5. -/
def acmePixel : DetectedRequest :=
  { url := "https://www.acme.com/pixel.gif"
    state := { blocked := true, allowed := none }
    entityName := some "Acme.com"
    eTLDplus1 := some "acme.com"
    ownerName := some "Acme Corporation"
    prevalence := some 5
    category := some "Advertising" }

/-- A later request of the same entity with another owner name and prevalence. -/
def acmeLib : DetectedRequest :=
  { url := "https://cdn.acme.com/lib.js"
    state := { blocked := true, allowed := none }
    entityName := some "Acme.com"
    eTLDplus1 := some "acme.com"
    ownerName := some "Acme Holdings"
    prevalence := some 9
    category := some "Analytics" }

/-- The entity `Acme` after the request `acmePixel`. -/
def acmeEntity : AggregateCompanyData :=
  { name := some "Acme Corporation"
    displayName := "Acme"
    prevalence := 5
    normalizedName := "acme"
    urls := [("acme.com", { url := "acme.com", category := some "Advertising" })] }

/-- A request whose `entityName` is present and empty. -/
def emptyEntityName : DetectedRequest :=
  { url := "https://cdn.example.net/a.js"
    state := { blocked := true, allowed := none }
    entityName := some ""
    eTLDplus1 := some "example.net"
    ownerName := none
    prevalence := none
    category := none }

/-- A request without `entityName` whose `eTLDplus1` is present and empty. -/
def emptyETLDplus1 : DetectedRequest :=
  { url := "https://cdn.example.net/a.js"
    state := { blocked := true, allowed := none }
    entityName := none
    eTLDplus1 := some ""
    ownerName := none
    prevalence := none
    category := none }

/-- A request whose state has both a `blocked` member and an `allowed` member with a
recognized reason. -/
def blockedAndAllowed : DetectedRequest :=
  { url := "https://tracker.example/p.gif"
    state := { blocked := true, allowed := some { reason := "ruleException" } }
    entityName := none
    eTLDplus1 := some "tracker.example"
    ownerName := none
    prevalence := none
    category := none }

/-- A blocked request to the single-label host `constructor`. -/
def constructorHost : DetectedRequest :=
  { url := "http://constructor/api"
    state := { blocked := true, allowed := none }
    entityName := none
    eTLDplus1 := some "constructor"
    ownerName := none
    prevalence := none
    category := none }

/-- A request allowed with the reason `toString`, which is no bucket of `allowed`. -/
def toStringReason : DetectedRequest :=
  { url := "https://tracker.example/p.gif"
    state := { blocked := false, allowed := some { reason := "toString" } }
    entityName := none
    eTLDplus1 := some "tracker.example"
    ownerName := none
    prevalence := none
    category := none }

/-- A request allowed as an ordinary third-party request. -/
def exampleNet : DetectedRequest :=
  { url := "https://cdn.example.net/a.js"
    state := { blocked := false, allowed := some { reason := "otherThirdPartyRequest" } }
    entityName := none
    eTLDplus1 := some "example.net"
    ownerName := none
    prevalence := none
    category := none }

/-- A request with the unparsable url `__proto__`. -/
def protoUrl : DetectedRequest :=
  { url := "__proto__"
    state := { blocked := true, allowed := none }
    entityName := none
    eTLDplus1 := some "example.net"
    ownerName := none
    prevalence := none
    category := none }

/-- A request whose url has no scheme, so does not parse, and starts with `www.`. -/
def wwwRaw : DetectedRequest :=
  { url := "www.example.net/a.js"
    state := { blocked := true, allowed := none }
    entityName := none
    eTLDplus1 := some "example.net"
    ownerName := none
    prevalence := none
    category := none }

/-- A request with the unparsable url `constructor` and neither `entityName` nor
`eTLDplus1`. -/
def constructorUrl : DetectedRequest :=
  { url := "constructor"
    state := { blocked := true, allowed := none }
    entityName := none
    eTLDplus1 := none
    ownerName := none
    prevalence := none
    category := none }

/-- The request of Scenario D: the unparsable url `not a url`. -/
def notAUrl : DetectedRequest :=
  { url := "not a url"
    state := { blocked := true, allowed := none }
    entityName := none
    eTLDplus1 := none
    ownerName := none
    prevalence := none
    category := none }

/-- A blocked request of the entity `360`, with the prevalence of `acmePixel`. -/
def entity360 : DetectedRequest :=
  { url := "https://cdn.acme.com/lib.js"
    state := { blocked := true, allowed := none }
    entityName := some "360"
    eTLDplus1 := some "acme.com"
    ownerName := some "360 Group"
    prevalence := some 5
    category := none }

/-- A blocked request of the entity `42`, with the prevalence of `acmePixel`. -/
def entity42 : DetectedRequest :=
  { url := "https://cdn.acme.com/lib.js"
    state := { blocked := true, allowed := none }
    entityName := some "42"
    eTLDplus1 := some "acme.com"
    ownerName := some "42 Labs"
    prevalence := some 5
    category := none }

/-- A blocked request of the entity `example.net`, with prevalence 9. -/
def blockedCdn : DetectedRequest :=
  { url := "https://cdn.example.net/a.js"
    state := { blocked := true, allowed := none }
    entityName := none
    eTLDplus1 := some "example.net"
    ownerName := some "Example Net"
    prevalence := some 9
    category := none }

/-- A tracker request allowed by a rule exception. -/
def ruleExceptionRequest : DetectedRequest :=
  { url := "https://tracker.example/p.gif"
    state := { blocked := false, allowed := some { reason := "ruleException" } }
    entityName := none
    eTLDplus1 := some "tracker.example"
    ownerName := none
    prevalence := none
    category := none }

/-- A request of the same entity allowed as owned by the first party. -/
def firstPartyRequest : DetectedRequest :=
  { url := "https://tracker.example/q.gif"
    state := { blocked := false, allowed := some { reason := "ownedByFirstParty" } }
    entityName := none
    eTLDplus1 := some "tracker.example"
    ownerName := none
    prevalence := none
    category := none }

/-- A blocked request whose owner name is the string `unknown`. -/
def unknownOwner : DetectedRequest :=
  { url := "https://tracker.example/p.gif"
    state := { blocked := true, allowed := none }
    entityName := none
    eTLDplus1 := some "tracker.example"
    ownerName := some "unknown"
    prevalence := none
    category := none }

/-- A blocked tracker request. -/
def blockedTracker : DetectedRequest :=
  { url := "https://tracker.example/p.gif"
    state := { blocked := true, allowed := none }
    entityName := none
    eTLDplus1 := some "tracker.example"
    ownerName := some "Tracker Inc"
    prevalence := some 3
    category := none }

/-- A request list with a chosen sign pattern of the three counts: a blocked request when
`b`, a request allowed with a special reason when `s`, and a request allowed as an
ordinary third-party request when `n`. -/
def patternRequests (b s n : Bool) : List DetectedRequest :=
  (if b then [blockedTracker] else []) ++ (if s then [ruleExceptionRequest] else []) ++
    (if n then [exampleNet] else [])

/-- The payload of Scenario E: no `requests` member. -/
def payloadWithoutRequests : WirePayload :=
  { requests := none, installedSurrogates := some ["cdn.example.net"] }

/-- A schema-valid payload without `installedSurrogates`. -/
def payloadAcme : WirePayload :=
  { requests := some [acmePixel, acmeLib], installedSurrogates := none }

/-- A schema-valid payload with `installedSurrogates`. -/
def payloadTracker : WirePayload :=
  { requests := some [blockedTracker, exampleNet]
    installedSurrogates := some ["cdn.example.net"] }

/-! ## Records -/

theorem lookup_cons_self {α : Type} (o : List (String × α)) (k : String) (v : α) :
    ((k, v) :: o).lookup k = some v := by
  simp [List.lookup_cons]

theorem lookup_cons_ne {α : Type} (o : List (String × α)) {k a : String} (v : α)
    (h : k ≠ a) : ((a, v) :: o).lookup k = o.lookup k := by
  have hb : (k == a) = false := by simpa using h
  simp [List.lookup_cons, hb]

theorem lookup_replaceOwn {α : Type} (o : List (String × α)) (k k' : String) (v : α) :
    (replaceOwn o k v).lookup k' =
      if k' = k then (o.lookup k).map (fun _ => v) else o.lookup k' := by
  induction o with
  | nil => simp [replaceOwn]
  | cons p o ih =>
    obtain ⟨a, b⟩ := p
    simp only [replaceOwn, List.map_cons] at ih ⊢
    by_cases hak : a = k
    · subst hak
      by_cases hk : k' = a
      · subst hk
        simp [lookup_cons_self]
      · simp [lookup_cons_ne _ _ hk, hk, ih]
    · have hka : k ≠ a := fun h => hak h.symm
      by_cases hk : k' = k
      · subst hk
        simp [lookup_cons_ne _ _ hka, hak, ih]
      · by_cases hka' : k' = a
        · subst hka'
          simp [lookup_cons_self, hak, hk]
        · simp [lookup_cons_ne _ _ hka', hak, ih, hk]

theorem map_fst_replaceOwn {α : Type} (o : List (String × α)) (k : String) (v : α) :
    (replaceOwn o k v).map Prod.fst = o.map Prod.fst := by
  induction o with
  | nil => rfl
  | cons p o ih =>
    simp only [replaceOwn, List.map_cons, List.map_map] at ih ⊢
    by_cases h : p.1 = k
    · simp [h, ih]
    · simp [h, ih]

theorem length_replaceOwn {α : Type} (o : List (String × α)) (k : String) (v : α) :
    (replaceOwn o k v).length = o.length := by
  simp [replaceOwn]

theorem lookup_eq_none_iff_not_mem {α : Type} (o : List (String × α)) (k : String) :
    o.lookup k = none ↔ k ∉ o.map Prod.fst := by
  induction o with
  | nil => simp
  | cons p o ih =>
    obtain ⟨a, b⟩ := p
    by_cases h : k = a
    · subst h; simp [lookup_cons_self]
    · rw [lookup_cons_ne _ _ h, ih]; simp [h]

theorem lookup_append_single {α : Type} (o : List (String × α)) (k k' : String) (v : α) :
    (o ++ [(k, v)]).lookup k' =
      match o.lookup k' with
      | some w => some w
      | none => if k' = k then some v else none := by
  induction o with
  | nil =>
    by_cases h : k' = k
    · subst h; simp [lookup_cons_self]
    · simp [lookup_cons_ne _ _ h, h]
  | cons p o ih =>
    obtain ⟨a, b⟩ := p
    by_cases h : k' = a
    · subst h; simp [lookup_cons_self]
    · simp only [List.cons_append, lookup_cons_ne _ _ h, ih]

theorem replaceOwn_append_single {α : Type} (o : List (String × α)) (k : String) (v w : α)
    (h : o.lookup k = none) :
    replaceOwn (o ++ [(k, v)]) k w = o ++ [(k, w)] := by
  have hk : ∀ p ∈ o, p.1 ≠ k := by
    intro p hp hpk
    have := (lookup_eq_none_iff_not_mem o k).1 h
    exact this (List.mem_map.2 ⟨p, hp, hpk⟩)
  simp only [replaceOwn, List.map_append, List.map_cons, List.map_nil, if_true]
  congr 1
  calc o.map (fun p => if p.1 = k then (k, w) else p) = o.map id :=
        List.map_congr_left (fun p hp => by simp [hk p hp])
    _ = o := List.map_id o


/-! ## One call of `addRequest` -/

theorem proto_mem_objectPrototypeKeys : "__proto__" ∈ objectPrototypeKeys := by decide

theorem addRequest_of_own (env : Collaborators) (b : AggregatedCompanyResponseData)
    (r : DetectedRequest) (e : AggregateCompanyData)
    (h : b.entities.lookup (displayNameOf env r) = some e) :
    b.addRequest env r = Except.ok
      { entities := replaceOwn b.entities (displayNameOf env r)
          (e.addUrl (urlHostnameOf env r) r.category)
        entitiesCount := b.entities.length
        requestCount := b.requestCount + 1 } := by
  simp [AggregatedCompanyResponseData.addRequest, propGet, h, Lookup.truthy, length_replaceOwn]

theorem addRequest_of_inherited (env : Collaborators) (b : AggregatedCompanyResponseData)
    (r : DetectedRequest) (h : b.entities.lookup (displayNameOf env r) = none)
    (hk : displayNameOf env r ∈ objectPrototypeKeys) :
    b.addRequest env r = Except.error JsError.typeError := by
  simp [AggregatedCompanyResponseData.addRequest, propGet, h, hk, Lookup.truthy]

theorem addRequest_of_unseen (env : Collaborators) (b : AggregatedCompanyResponseData)
    (r : DetectedRequest) (h : b.entities.lookup (displayNameOf env r) = none)
    (hk : displayNameOf env r ∉ objectPrototypeKeys) :
    b.addRequest env r = Except.ok
      { entities := b.entities ++ [(displayNameOf env r,
          (AggregateCompanyData.new env r.ownerName (displayNameOf env r)
            (r.prevalence.getD 0)).addUrl (urlHostnameOf env r) r.category)]
        entitiesCount := b.entities.length + 1
        requestCount := b.requestCount + 1 } := by
  have hp : displayNameOf env r ≠ "__proto__" := by
    intro hp
    exact hk (hp ▸ proto_mem_objectPrototypeKeys)
  have hl : (b.entities ++ [(displayNameOf env r,
      AggregateCompanyData.new env r.ownerName (displayNameOf env r)
        (r.prevalence.getD 0))]).lookup (displayNameOf env r) =
      some (AggregateCompanyData.new env r.ownerName (displayNameOf env r)
        (r.prevalence.getD 0)) := by
    rw [lookup_append_single, h]; simp
  simp [AggregatedCompanyResponseData.addRequest, propGet, h, hk, Lookup.truthy, propSet, hp,
    hl, replaceOwn_append_single _ _ _ _ h]

/-! ## Buckets reached from a fresh one -/

theorem reached_fresh (env : Collaborators) :
    Reached env [] AggregatedCompanyResponseData.fresh where
  count := rfl
  nodup := List.nodup_nil
  requests := rfl
  entry := by intro k e h; simp [AggregatedCompanyResponseData.fresh] at h
  seen := by intro r hr; simp at hr

theorem firstWithKey_append_of_some (env : Collaborators) (l : List DetectedRequest)
    (r r0 : DetectedRequest) (k : String) (h : firstWithKey env l k = some r0) :
    firstWithKey env (l ++ [r]) k = some r0 := by
  simp [firstWithKey, List.find?_append] at h ⊢
  simp [h]

theorem reached_step (env : Collaborators) (l : List DetectedRequest)
    (S : AggregatedCompanyResponseData) (r : DetectedRequest) (hS : Reached env l S) :
    Reached env (l ++ [r]) (addRequestCall env S r) := by
  cases hlook : S.entities.lookup (displayNameOf env r) with
  | some e =>
    have hkr := (hS.entry _ e hlook).1
    rw [addRequestCall, addRequest_of_own env S r e hlook]
    refine ⟨by simp [length_replaceOwn], by simpa [map_fst_replaceOwn] using hS.nodup,
      by simp [List.filter_append, hkr, hS.requests], ?_, ?_⟩
    · intro k e1 h1
      simp only [lookup_replaceOwn] at h1
      by_cases hk : k = displayNameOf env r
      · subst hk
        simp only [if_true, hlook, Option.map_some', Option.some.injEq] at h1
        subst h1
        obtain ⟨hp, r0, h0, hn, hv, hd, hm⟩ := hS.entry _ e hlook
        exact ⟨hp, r0, firstWithKey_append_of_some env l r r0 _ h0, hn, hv, hd, hm⟩
      · simp only [hk, if_false] at h1
        obtain ⟨hp, r0, h0, hrest⟩ := hS.entry k e1 h1
        exact ⟨hp, r0, firstWithKey_append_of_some env l r r0 _ h0, hrest⟩
    · intro r1 hr1 hp1
      simp only [map_fst_replaceOwn]
      rcases List.mem_append.1 hr1 with h | h
      · exact hS.seen r1 h hp1
      · rw [List.mem_singleton.1 h]
        by_contra hc
        rw [← lookup_eq_none_iff_not_mem, hlook] at hc
        exact Option.noConfusion hc
  | none =>
    by_cases hkr : displayNameOf env r ∈ objectPrototypeKeys
    · rw [addRequestCall, addRequest_of_inherited env S r hlook hkr]
      refine ⟨hS.count, hS.nodup, by simp [List.filter_append, hkr, hS.requests], ?_, ?_⟩
      · intro k e1 h1
        obtain ⟨hp, r0, h0, hrest⟩ := hS.entry k e1 h1
        exact ⟨hp, r0, firstWithKey_append_of_some env l r r0 _ h0, hrest⟩
      · intro r1 hr1 hp1
        rcases List.mem_append.1 hr1 with h | h
        · exact hS.seen r1 h hp1
        · rw [List.mem_singleton.1 h] at hp1
          exact absurd hkr hp1
    · have hnot : displayNameOf env r ∉ S.entities.map Prod.fst :=
        (lookup_eq_none_iff_not_mem _ _).1 hlook
      rw [addRequestCall, addRequest_of_unseen env S r hlook hkr]
      refine ⟨by simp, ?_, by simp [List.filter_append, hkr, hS.requests], ?_, ?_⟩
      · simp only [List.map_append, List.map_cons, List.map_nil]
        exact List.Nodup.append hS.nodup (List.nodup_singleton _)
          (by
            intro x hx hx1
            rw [List.mem_singleton.1 hx1] at hx
            exact hnot hx)
      · intro k e1 h1
        simp only [lookup_append_single] at h1
        cases hk : S.entities.lookup k with
        | some w =>
          simp only [hk, Option.some.injEq] at h1
          subst h1
          obtain ⟨hp, r0, h0, hrest⟩ := hS.entry k w hk
          exact ⟨hp, r0, firstWithKey_append_of_some env l r r0 _ h0, hrest⟩
        | none =>
          simp only [hk] at h1
          by_cases hkk : k = displayNameOf env r
          · subst hkk
            simp only [if_true, Option.some.injEq] at h1
            subst h1
            refine ⟨hkr, r, ?_, rfl, rfl, rfl, rfl⟩
            have hnone : firstWithKey env l (displayNameOf env r) = none := by
              simp only [firstWithKey, List.find?_eq_none, decide_eq_true_eq]
              intro x hx hxk
              exact hnot (hxk ▸ hS.seen x hx (hxk ▸ hkr))
            unfold firstWithKey at hnone ⊢
            rw [List.find?_append, hnone]
            simp
          · simp [hkk] at h1
      · intro r1 hr1 hp1
        simp only [List.map_append, List.map_cons, List.map_nil, List.mem_append,
          List.mem_singleton]
        rcases List.mem_append.1 hr1 with h | h
        · exact Or.inl (hS.seen r1 h hp1)
        · exact Or.inr (by rw [List.mem_singleton.1 h])

theorem addRequestCalls_append (env : Collaborators) (b : AggregatedCompanyResponseData)
    (l : List DetectedRequest) (r : DetectedRequest) :
    addRequestCalls env b (l ++ [r]) = addRequestCall env (addRequestCalls env b l) r := by
  simp [addRequestCalls, List.foldl_append]

theorem reached_calls (env : Collaborators) (l : List DetectedRequest) :
    Reached env l (addRequestCalls env AggregatedCompanyResponseData.fresh l) := by
  induction l using List.reverseRecOn with
  | nil => exact reached_fresh env
  | append_singleton l r ih =>
    rw [addRequestCalls_append]
    exact reached_step env l _ r ih

/-- A call of `addRequest` on any bucket keeps every entity that is there, with its
`name`, `displayName`, `prevalence` and `normalizedName`. -/
theorem addRequestCall_keeps_identity (env : Collaborators)
    (b : AggregatedCompanyResponseData) (r : DetectedRequest) (k : String)
    (e : AggregateCompanyData) (h : b.entities.lookup k = some e) :
    ∃ e1, (addRequestCall env b r).entities.lookup k = some e1 ∧
      e1.name = e.name ∧ e1.prevalence = e.prevalence ∧
      e1.displayName = e.displayName ∧ e1.normalizedName = e.normalizedName := by
  cases hlook : b.entities.lookup (displayNameOf env r) with
  | some e0 =>
    rw [addRequestCall, addRequest_of_own env b r e0 hlook]
    simp only [lookup_replaceOwn]
    by_cases hk : k = displayNameOf env r
    · subst hk
      rw [hlook] at h
      cases h
      exact ⟨e.addUrl (urlHostnameOf env r) r.category, by simp [hlook], rfl, rfl, rfl, rfl⟩
    · exact ⟨e, by simp [hk, h], rfl, rfl, rfl, rfl⟩
  | none =>
    by_cases hkr : displayNameOf env r ∈ objectPrototypeKeys
    · rw [addRequestCall, addRequest_of_inherited env b r hlook hkr]
      exact ⟨e, h, rfl, rfl, rfl, rfl⟩
    · rw [addRequestCall, addRequest_of_unseen env b r hlook hkr]
      exact ⟨e, by simp [lookup_append_single, h], rfl, rfl, rfl, rfl⟩

/-- A call of `addRequest` that completes leaves an entity under the request's key. -/
theorem addRequest_ok_lookup (env : Collaborators) (b b1 : AggregatedCompanyResponseData)
    (r : DetectedRequest) (h : b.addRequest env r = Except.ok b1) :
    ∃ e, b1.entities.lookup (displayNameOf env r) = some e := by
  cases hlook : b.entities.lookup (displayNameOf env r) with
  | some e0 =>
    rw [addRequest_of_own env b r e0 hlook] at h
    cases h
    exact ⟨e0.addUrl (urlHostnameOf env r) r.category, by simp [lookup_replaceOwn, hlook]⟩
  | none =>
    by_cases hkr : displayNameOf env r ∈ objectPrototypeKeys
    · rw [addRequest_of_inherited env b r hlook hkr] at h
      cases h
    · rw [addRequest_of_unseen env b r hlook hkr] at h
      cases h
      exact ⟨(AggregateCompanyData.new env r.ownerName (displayNameOf env r)
        (r.prevalence.getD 0)).addUrl (urlHostnameOf env r) r.category,
        by simp [lookup_append_single, hlook]⟩

/-! ## The loop of `createRequestDetails` -/

theorem addRequest_of_not_inherited (env : Collaborators) (b : AggregatedCompanyResponseData)
    (r : DetectedRequest) (hk : displayNameOf env r ∉ objectPrototypeKeys) :
    b.addRequest env r = Except.ok (addRequestCall env b r) := by
  cases hlook : b.entities.lookup (displayNameOf env r) with
  | some e => simp [addRequestCall, addRequest_of_own env b r e hlook]
  | none => simp [addRequestCall, addRequest_of_unseen env b r hlook hk]

theorem addRequest_error_of_reached (env : Collaborators) (l : List DetectedRequest)
    (S : AggregatedCompanyResponseData) (r : DetectedRequest) (hS : Reached env l S)
    (hk : displayNameOf env r ∈ objectPrototypeKeys) :
    S.addRequest env r = Except.error JsError.typeError := by
  cases hlook : S.entities.lookup (displayNameOf env r) with
  | some e => exact absurd hk (hS.entry _ e hlook).1
  | none => exact addRequest_of_inherited env S r hlook hk

theorem routeBlocked_of_not_inherited (env : Collaborators) (o : RequestDetails)
    (r : DetectedRequest) (hk : displayNameOf env r ∉ objectPrototypeKeys) :
    routeBlocked env o r = Except.ok
      { o with blocked := if r.state.blocked then addRequestCall env o.blocked r
                          else o.blocked } := by
  unfold routeBlocked
  by_cases hb : r.state.blocked = true
  · simp [hb, addRequest_of_not_inherited env o.blocked r hk]
  · simp [hb]

theorem get?_eq_none_of_inherited (a : AllowedBuckets) (reason : String)
    (h : reason ∈ objectPrototypeKeys) : a.get? reason = none := by
  simp only [objectPrototypeKeys, List.mem_cons, List.mem_singleton, List.not_mem_nil,
    or_false] at h
  rcases h with h | h | h | h | h | h | h | h | h | h | h | h <;> subst h <;>
    simp [AllowedBuckets.get?]

theorem routeAllowed_of_not_inherited (env : Collaborators) (o : RequestDetails)
    (r : DetectedRequest) (hr : Routable env r) :
    routeAllowed env o r = Except.ok { o with allowed := (routeCall env o r).allowed } := by
  unfold routeAllowed
  cases ha : r.state.allowed with
  | none => simp [routeCall, hasReason, ha]
  | some a =>
    have hnp := hr.2 a ha
    obtain ⟨reason⟩ := a
    simp only at hnp ⊢
    by_cases hin : reason ∈ allowedKeys
    · have hinA : inAllowed reason = true := by simp [inAllowed, hin]
      simp only [allowedKeys, List.mem_cons, List.mem_singleton, List.not_mem_nil,
        or_false] at hin
      rcases hin with h | h | h | h | h <;> subst h <;>
        simp [hinA, AllowedBuckets.get?, AllowedBuckets.set, routeCall, hasReason, ha,
          addRequest_of_not_inherited env _ r hr.1]
    · have hinA : inAllowed reason = false := by simp [inAllowed, hin, hnp]
      simp only [allowedKeys, List.mem_cons, List.mem_singleton, List.not_mem_nil,
        or_false, not_or] at hin
      obtain ⟨h1, h2, h3, h4, h5⟩ := hin
      simp [hinA, routeCall, hasReason, ha, h1, h2, h3, h4, h5]

theorem routeRequest_of_routable (env : Collaborators) (o : RequestDetails)
    (r : DetectedRequest) (hr : Routable env r) :
    routeRequest env o r = Except.ok (routeCall env o r) := by
  unfold routeRequest
  rw [addRequest_of_not_inherited env o.all r hr.1]
  simp only [routeBlocked_of_not_inherited env _ r hr.1, routeAllowed_of_not_inherited env _ r hr]
  rfl

theorem routeAllowed_ok_reason (env : Collaborators) (o o1 : RequestDetails)
    (r : DetectedRequest) (h : routeAllowed env o r = Except.ok o1) :
    ∀ a, r.state.allowed = some a → a.reason ∉ objectPrototypeKeys := by
  intro a ha hmem
  have hin : inAllowed a.reason = true := by simp [inAllowed, hmem]
  simp [routeAllowed, ha, hin, get?_eq_none_of_inherited o.allowed a.reason hmem] at h

theorem routeRequest_ok_routable (env : Collaborators) (s : List String)
    (l : List DetectedRequest) (o o1 : RequestDetails) (r : DetectedRequest)
    (hR : Routed env s l o) (h : routeRequest env o r = Except.ok o1) :
    Routable env r := by
  have hkey : displayNameOf env r ∉ objectPrototypeKeys := by
    intro hk
    have hall : Reached env l o.all := hR.all ▸ reached_calls env l
    simp [routeRequest, addRequest_error_of_reached env l o.all r hall hk] at h
  refine ⟨hkey, ?_⟩
  unfold routeRequest at h
  rw [addRequest_of_not_inherited env o.all r hkey] at h
  simp only [routeBlocked_of_not_inherited env _ r hkey] at h
  exact routeAllowed_ok_reason env _ o1 r h

theorem routed_new (env : Collaborators) (s : List String) :
    Routed env s [] (RequestDetails.new s) where
  routable := by intro r hr; simp at hr
  surrogates := rfl
  all := rfl
  blocked := rfl
  adClickAttribution := rfl
  ownedByFirstParty := rfl
  ruleException := rfl
  protectionDisabled := rfl
  otherThirdPartyRequest := rfl

theorem addRequestCalls_filter_append (env : Collaborators) (p : DetectedRequest → Bool)
    (l : List DetectedRequest) (r : DetectedRequest) :
    addRequestCalls env AggregatedCompanyResponseData.fresh ((l ++ [r]).filter p) =
      if p r then
        addRequestCall env (addRequestCalls env AggregatedCompanyResponseData.fresh
          (l.filter p)) r
      else addRequestCalls env AggregatedCompanyResponseData.fresh (l.filter p) := by
  by_cases hp : p r = true
  · simp [List.filter_append, hp, addRequestCalls_append]
  · simp [List.filter_append, hp]

theorem routed_routeCall (env : Collaborators) (s : List String) (l : List DetectedRequest)
    (o : RequestDetails) (r : DetectedRequest) (hR : Routed env s l o)
    (hr : Routable env r) : Routed env s (l ++ [r]) (routeCall env o r) where
  routable := by
    intro x hx
    rcases List.mem_append.1 hx with h | h
    · exact hR.routable x h
    · rw [List.mem_singleton.1 h]; exact hr
  surrogates := hR.surrogates
  all := by simp [routeCall, addRequestCalls_append, hR.all]
  blocked := by
    rw [addRequestCalls_filter_append, ← hR.blocked]; simp [routeCall]
  adClickAttribution := by
    rw [addRequestCalls_filter_append, ← hR.adClickAttribution]; simp [routeCall]
  ownedByFirstParty := by
    rw [addRequestCalls_filter_append, ← hR.ownedByFirstParty]; simp [routeCall]
  ruleException := by
    rw [addRequestCalls_filter_append, ← hR.ruleException]; simp [routeCall]
  protectionDisabled := by
    rw [addRequestCalls_filter_append, ← hR.protectionDisabled]; simp [routeCall]
  otherThirdPartyRequest := by
    rw [addRequestCalls_filter_append, ← hR.otherThirdPartyRequest]; simp [routeCall]

theorem routeAll_routed (env : Collaborators) (s : List String) (rest : List DetectedRequest) :
    ∀ (l : List DetectedRequest) (o final : RequestDetails), Routed env s l o →
      routeAll env o rest = Except.ok final → Routed env s (l ++ rest) final := by
  induction rest with
  | nil =>
    intro l o final hR h
    simp only [routeAll, Except.ok.injEq] at h
    subst h
    simpa using hR
  | cons r rest ih =>
    intro l o final hR h
    cases hstep : routeRequest env o r with
    | error e => simp [routeAll, hstep] at h
    | ok o1 =>
      have hr := routeRequest_ok_routable env s l o o1 r hR hstep
      have ho1 : o1 = routeCall env o r := by
        rw [routeRequest_of_routable env o r hr] at hstep
        exact (Except.ok.inj hstep).symm
      simp only [routeAll, hstep] at h
      have := ih (l ++ [r]) o1 final (ho1 ▸ routed_routeCall env s l o r hR hr) h
      simpa using this

theorem routeAll_of_routable (env : Collaborators) (rest : List DetectedRequest) :
    ∀ o : RequestDetails, (∀ r ∈ rest, Routable env r) →
      ∃ final, routeAll env o rest = Except.ok final := by
  induction rest with
  | nil => intro o _; exact ⟨o, rfl⟩
  | cons r rest ih =>
    intro o h
    have hr := h r (List.mem_cons_self r rest)
    obtain ⟨final, hfinal⟩ := ih (routeCall env o r)
      (fun x hx => h x (List.mem_cons_of_mem r hx))
    exact ⟨final, by simp [routeAll, routeRequest_of_routable env o r hr, hfinal]⟩

/-- A result of `createRequestDetails` holds, in every bucket, exactly the requests
routed to it. -/
theorem createRequestDetails_routed (env : Collaborators) (requests : List DetectedRequest)
    (s : List String) (out : RequestDetails)
    (h : createRequestDetails env requests s = Except.ok out) :
    Routed env s requests out := by
  have := routeAll_routed env s requests [] (RequestDetails.new s) out (routed_new env s) h
  simpa using this

/-- The function `createRequestDetails` returns a result exactly when no naming-rule key
and no reason of an `allowed` member is a name inherited from `Object.prototype`;
otherwise it raises. -/
theorem createRequestDetails_ok_iff (env : Collaborators) (requests : List DetectedRequest)
    (s : List String) :
    (∃ out, createRequestDetails env requests s = Except.ok out) ↔
      ∀ r ∈ requests, Routable env r := by
  constructor
  · rintro ⟨out, h⟩
    exact (createRequestDetails_routed env requests s out h).routable
  · intro h
    exact routeAll_of_routable env requests (RequestDetails.new s) h

theorem mem_keys_iff_lookup {α : Type} (o : List (String × α)) (k : String) :
    k ∈ o.map Prod.fst ↔ ∃ v, o.lookup k = some v := by
  constructor
  · intro h
    cases hl : o.lookup k with
    | some v => exact ⟨v, rfl⟩
    | none => exact absurd h ((lookup_eq_none_iff_not_mem o k).1 hl)
  · rintro ⟨v, hv⟩
    by_contra hc
    rw [← lookup_eq_none_iff_not_mem, hv] at hc
    exact Option.noConfusion hc

/-- The own keys of a reached bucket are the naming-rule keys of the requests it
received, those that are inherited names left out. -/
theorem reached_mem_keys (env : Collaborators) (l : List DetectedRequest)
    (S : AggregatedCompanyResponseData) (hS : Reached env l S) (k : String) :
    k ∈ S.entities.map Prod.fst ↔
      k ∉ objectPrototypeKeys ∧ ∃ r ∈ l, displayNameOf env r = k := by
  constructor
  · intro h
    obtain ⟨e, he⟩ := (mem_keys_iff_lookup _ _).1 h
    obtain ⟨hp, r, hr, _⟩ := hS.entry k e he
    refine ⟨hp, r, List.mem_of_find?_eq_some hr, ?_⟩
    have := List.find?_some hr
    simpa using this
  · rintro ⟨hp, r, hr, rfl⟩
    exact hS.seen r hr hp

/-- In a reached bucket `entitiesCount` is the number of distinct naming-rule keys of
the requests it received, inherited names left out. -/
theorem reached_entitiesCount (env : Collaborators) (l : List DetectedRequest)
    (S : AggregatedCompanyResponseData) (hS : Reached env l S) :
    S.entitiesCount =
      (((l.map (displayNameOf env)).filter
        (fun k => decide (k ∉ objectPrototypeKeys))).toFinset).card := by
  rw [hS.count, ← List.length_map S.entities Prod.fst, ← List.toFinset_card_of_nodup hS.nodup]
  congr 1
  ext k
  simp only [List.mem_toFinset, reached_mem_keys env l S hS k, List.mem_filter, List.mem_map,
    decide_eq_true_eq]
  tauto

/-- A result of `createRequestDetails` counts in `all` the distinct naming-rule keys of
the requests. -/
theorem createRequestDetails_all_entitiesCount (env : Collaborators)
    (requests : List DetectedRequest) (s : List String) (out : RequestDetails)
    (h : createRequestDetails env requests s = Except.ok out) :
    out.all.entitiesCount = ((requests.map (displayNameOf env)).toFinset).card ∧
    out.all.requestCount = requests.length := by
  have hR := createRequestDetails_routed env requests s out h
  have hS : Reached env requests out.all := hR.all ▸ reached_calls env requests
  have hall : ∀ r ∈ requests, displayNameOf env r ∉ objectPrototypeKeys :=
    fun r hr => (hR.routable r hr).1
  constructor
  · rw [reached_entitiesCount env requests out.all hS]
    congr 2
    rw [List.filter_eq_self]
    intro k hk
    obtain ⟨r, hr, rfl⟩ := List.mem_map.1 hk
    simpa using hall r hr
  · rw [hS.requests]
    congr 1
    rw [List.filter_eq_self]
    intro r hr
    simpa using hall r hr

theorem routeAllowed_ok_cases (env : Collaborators) (o o1 : RequestDetails)
    (r : DetectedRequest) (h : routeAllowed env o r = Except.ok o1) :
    o1.all = o.all ∧ o1.blocked = o.blocked ∧
    (r.state.allowed = none → o1.allowed = o.allowed) ∧
    (∀ a, r.state.allowed = some a → a.reason ∉ allowedKeys → o1.allowed = o.allowed) ∧
    (∀ a, r.state.allowed = some a → a.reason ∈ allowedKeys →
      ∃ bucket b1, o.allowed.get? a.reason = some bucket ∧
        bucket.addRequest env r = Except.ok b1 ∧
        o1.allowed = o.allowed.set a.reason b1) := by
  unfold routeAllowed at h
  cases ha : r.state.allowed with
  | none =>
    simp only [ha, Except.ok.injEq] at h
    subst h
    simp
  | some a =>
    simp only [ha] at h
    by_cases hin : inAllowed a.reason = true
    · simp only [hin, if_true] at h
      cases hg : o.allowed.get? a.reason with
      | none => simp [hg] at h
      | some bucket =>
        simp only [hg] at h
        cases hb : bucket.addRequest env r with
        | error e => simp [hb] at h
        | ok b1 =>
          simp only [hb, Except.ok.injEq] at h
          subst h
          refine ⟨rfl, rfl, by simp, ?_, ?_⟩
          · intro a1 ha1 hnot
            cases ha1
            exfalso
            revert hg
            simp only [allowedKeys, List.mem_cons, List.mem_singleton, List.not_mem_nil,
              or_false, not_or] at hnot
            obtain ⟨h1, h2, h3, h4, h5⟩ := hnot
            simp [AllowedBuckets.get?, h1, h2, h3, h4, h5]
          · intro a1 ha1 _
            cases ha1
            exact ⟨bucket, b1, hg, hb, rfl⟩
    · simp only [hin] at h
      simp only [Bool.false_eq_true, if_false, Except.ok.injEq] at h
      subst h
      refine ⟨rfl, rfl, by simp, fun _ _ _ => rfl, ?_⟩
      intro a1 ha1 hmem
      cases ha1
      exact absurd (by simp [inAllowed, hmem]) hin

/-! ## Sanity checks of the enumeration order -/

theorem arrayIndex?_examples :
    arrayIndex? "42" = some 42 ∧ arrayIndex? "0" = some 0 ∧ arrayIndex? "007" = none ∧
    arrayIndex? "" = none ∧ arrayIndex? "4294967294" = some 4294967294 ∧
    arrayIndex? "4294967295" = none ∧ arrayIndex? "Acme" = none ∧
    arrayIndex? "1.5" = none := by
  decide

/-! ## Nothing is removed -/

theorem mem_keys_propSet {α : Type} (o : List (String × α)) (k : String) (v : α) (u : String)
    (h : u ∈ o.map Prod.fst) : u ∈ (propSet o k v).map Prod.fst := by
  unfold propSet
  split_ifs
  · rw [map_fst_replaceOwn]; exact h
  · exact h
  · simp only [List.map_append, List.mem_append]; exact Or.inl h

theorem lookup_propSet_self {α : Type} (o : List (String × α)) (k : String) (v : α)
    (h : (o.lookup k).isSome = true ∨ k ≠ "__proto__") :
    (propSet o k v).lookup k = some v := by
  unfold propSet
  cases hl : o.lookup k with
  | some w => simp [lookup_replaceOwn, hl]
  | none =>
    have hk : k ≠ "__proto__" := by
      rcases h with h | h
      · simp [hl] at h
      · exact h
    simp [hk, lookup_append_single, hl]

theorem addUrl_keeps_urls (e : AggregateCompanyData) (k : String) (c : Option String)
    (u : String) (h : u ∈ e.urls.map Prod.fst) : u ∈ (e.addUrl k c).urls.map Prod.fst :=
  mem_keys_propSet e.urls k _ u h

/-- A call of `addRequest` on any bucket keeps every entity key, and in every entity
every url key. -/
theorem addRequestCall_keeps_keys (env : Collaborators) (b : AggregatedCompanyResponseData)
    (r : DetectedRequest) (k : String) (e : AggregateCompanyData)
    (h : b.entities.lookup k = some e) :
    ∃ e1, (addRequestCall env b r).entities.lookup k = some e1 ∧
      ∀ u ∈ e.urls.map Prod.fst, u ∈ e1.urls.map Prod.fst := by
  cases hlook : b.entities.lookup (displayNameOf env r) with
  | some e0 =>
    rw [addRequestCall, addRequest_of_own env b r e0 hlook]
    simp only [lookup_replaceOwn]
    by_cases hk : k = displayNameOf env r
    · subst hk
      rw [hlook] at h
      cases h
      exact ⟨e.addUrl (urlHostnameOf env r) r.category, by simp [hlook],
        fun u hu => addUrl_keeps_urls e _ _ u hu⟩
    · exact ⟨e, by simp [hk, h], fun u hu => hu⟩
  | none =>
    by_cases hkr : displayNameOf env r ∈ objectPrototypeKeys
    · rw [addRequestCall, addRequest_of_inherited env b r hlook hkr]
      exact ⟨e, h, fun u hu => hu⟩
    · rw [addRequestCall, addRequest_of_unseen env b r hlook hkr]
      exact ⟨e, by simp [lookup_append_single, h], fun u hu => hu⟩

/-- A call of `addRequest` that completes leaves, under the request's key, an entity on
which `addUrl` was called with the request's url key and category. -/
theorem addRequest_ok_entity (env : Collaborators) (b b1 : AggregatedCompanyResponseData)
    (r : DetectedRequest) (h : b.addRequest env r = Except.ok b1) :
    ∃ e0 : AggregateCompanyData, b1.entities.lookup (displayNameOf env r) =
      some (e0.addUrl (urlHostnameOf env r) r.category) := by
  cases hlook : b.entities.lookup (displayNameOf env r) with
  | some e0 =>
    rw [addRequest_of_own env b r e0 hlook] at h
    cases h
    exact ⟨e0, by simp [lookup_replaceOwn, hlook]⟩
  | none =>
    by_cases hkr : displayNameOf env r ∈ objectPrototypeKeys
    · rw [addRequest_of_inherited env b r hlook hkr] at h
      cases h
    · rw [addRequest_of_unseen env b r hlook hkr] at h
      cases h
      exact ⟨AggregateCompanyData.new env r.ownerName (displayNameOf env r)
        (r.prevalence.getD 0), by simp [lookup_append_single, hlook]⟩

/-- After a call of `addRequest` that completes, the request's url key is stored in the
entity under the request's key, unless that url key is `__proto__`. -/
theorem addRequest_ok_url_stored (env : Collaborators) (b b1 : AggregatedCompanyResponseData)
    (r : DetectedRequest) (h : b.addRequest env r = Except.ok b1)
    (hu : urlHostnameOf env r ≠ "__proto__") :
    ∃ e1, b1.entities.lookup (displayNameOf env r) = some e1 ∧
      e1.urls.lookup (urlHostnameOf env r) =
        some { url := urlHostnameOf env r, category := r.category } := by
  obtain ⟨e0, he0⟩ := addRequest_ok_entity env b b1 r h
  exact ⟨_, he0, lookup_propSet_self e0.urls _ _ (Or.inr hu)⟩

/-! ## The url key -/

theorem replaceLeadingWww_www_append (t : String) : replaceLeadingWww ("www." ++ t) = t := by
  have h : ("www." ++ t).data = 'w' :: 'w' :: 'w' :: '.' :: t.data := by
    rw [String.data_append]; rfl
  simp [replaceLeadingWww, h, dropWww]

theorem replaceLeadingWww_of_not_www (s : String) (h : ∀ t : String, s ≠ "www." ++ t) :
    replaceLeadingWww s = s := by
  have hd : dropWww s.data = s.data := by
    unfold dropWww
    split
    · rename_i rest heq
      exfalso
      apply h ⟨rest⟩
      apply String.ext
      rw [String.data_append, heq]
      rfl
    · rfl
  simp [replaceLeadingWww, hd]

/-- A request without `entityName` and `eTLDplus1` is keyed by its raw url; when that
url is not an inherited name, `addRequest` completes on every bucket, leaves an entity
under the raw url and adds 1 to `requestCount`. -/
theorem addRequest_raw_url_key (env : Collaborators) (b : AggregatedCompanyResponseData)
    (r : DetectedRequest) (hn : r.entityName = none) (ht : r.eTLDplus1 = none)
    (hk : r.url ∉ objectPrototypeKeys) :
    ∃ b1, b.addRequest env r = Except.ok b1 ∧
      (∃ e, b1.entities.lookup r.url = some e) ∧
      b1.requestCount = b.requestCount + 1 := by
  have hkey : displayNameOf env r = r.url := by
    simp [displayNameOf, strTruthy, hn, ht]
  have hok := addRequest_of_not_inherited env b r (by rw [hkey]; exact hk)
  refine ⟨_, hok, ?_, ?_⟩
  · have := addRequest_ok_lookup env b _ r hok
    rwa [hkey] at this
  · cases hlook : b.entities.lookup (displayNameOf env r) with
    | some e => simp [addRequestCall, addRequest_of_own env b r e hlook]
    | none =>
      simp [addRequestCall, addRequest_of_unseen env b r hlook (by rw [hkey]; exact hk)]

/-- Scenario D: the request with url `not a url` is added to any bucket without a raise,
under the raw url. -/
theorem addRequest_not_a_url (env : Collaborators) (b : AggregatedCompanyResponseData) :
    ∃ b1, b.addRequest env notAUrl = Except.ok b1 ∧
      (∃ e, b1.entities.lookup "not a url" = some e) ∧
      b1.requestCount = b.requestCount + 1 :=
  addRequest_raw_url_key env b notAUrl rfl rfl (by decide)

/-! ## Enumeration order and sorting -/

theorem ownEntries_perm {α : Type} (o : List (String × α)) : (ownEntries o).Perm o := by
  have h1 : (List.insertionSort indexLe (o.filter (fun p => (arrayIndex? p.1).isSome))).Perm
      (o.filter (fun p => (arrayIndex? p.1).isSome)) := List.perm_insertionSort _ _
  have h2 : (o.filter (fun p => (arrayIndex? p.1).isNone)) =
      o.filter (fun p => !(arrayIndex? p.1).isSome) := by
    congr 1
    funext p
    cases arrayIndex? p.1 <;> rfl
  unfold ownEntries
  rw [h2]
  exact (h1.append_right _).trans (List.filter_append_perm _ o)

theorem objectValues_perm {α : Type} (o : List (String × α)) :
    (objectValues o).Perm (o.map Prod.snd) :=
  (ownEntries_perm o).map Prod.snd

/-- Without array-index keys `Object.values` lists the values in creation order. -/
theorem objectValues_of_no_index {α : Type} (o : List (String × α))
    (h : ∀ p ∈ o, arrayIndex? p.1 = none) : objectValues o = o.map Prod.snd := by
  have h1 : o.filter (fun p => (arrayIndex? p.1).isSome) = [] := by
    rw [List.filter_eq_nil_iff]
    intro p hp
    simp [h p hp]
  have h2 : o.filter (fun p => (arrayIndex? p.1).isNone) = o := by
    rw [List.filter_eq_self]
    intro p hp
    simp [h p hp]
  simp [objectValues, ownEntries, h1, h2]

/-- The result of the stable sort by prevalence: a permutation of the array, in
non-increasing prevalence, in which the elements of each prevalence keep the order they
had in the array. -/
theorem sortByPrevalence_spec (arr : List AggregateCompanyData) :
    (sortByPrevalence arr).Perm arr ∧
    List.Sorted prevalenceGe (sortByPrevalence arr) ∧
    ∀ v : ℚ, (sortByPrevalence arr).filter (fun e => decide (e.prevalence = v)) =
      arr.filter (fun e => decide (e.prevalence = v)) := by
  refine ⟨List.perm_insertionSort _ _, List.sorted_insertionSort _ _, ?_⟩
  intro v
  have hsub : List.Sublist (arr.filter (fun e => decide (e.prevalence = v)))
      (sortByPrevalence arr) := by
    apply List.sublist_insertionSort _ (List.filter_sublist arr)
    rw [List.pairwise_iff_forall_sublist]
    intro a b hab
    have ha : a ∈ arr.filter (fun e => decide (e.prevalence = v)) :=
      hab.subset (by simp)
    have hb : b ∈ arr.filter (fun e => decide (e.prevalence = v)) :=
      hab.subset (by simp)
    simp only [List.mem_filter, decide_eq_true_eq] at ha hb
    show b.prevalence ≤ a.prevalence
    rw [ha.2, hb.2]
  have hsub2 : List.Sublist (arr.filter (fun e => decide (e.prevalence = v)))
      ((sortByPrevalence arr).filter (fun e => decide (e.prevalence = v))) := by
    have := hsub.filter (fun e => decide (e.prevalence = v))
    simpa using this
  have hlen : ((sortByPrevalence arr).filter (fun e => decide (e.prevalence = v))).length =
      (arr.filter (fun e => decide (e.prevalence = v))).length :=
    ((List.perm_insertionSort prevalenceGe arr).filter _).length_eq
  exact (hsub2.eq_of_length hlen.symm).symm

/-! ## Counts of a result of `createRequestDetails` -/

theorem addRequestCall_fresh (env : Collaborators) (r : DetectedRequest)
    (hk : displayNameOf env r ∉ objectPrototypeKeys) :
    addRequestCall env AggregatedCompanyResponseData.fresh r =
      { entities := [(displayNameOf env r,
          (AggregateCompanyData.new env r.ownerName (displayNameOf env r)
            (r.prevalence.getD 0)).addUrl (urlHostnameOf env r) r.category)]
        entitiesCount := 1
        requestCount := 1 } := by
  rw [addRequestCall, addRequest_of_unseen env AggregatedCompanyResponseData.fresh r rfl hk]
  rfl

theorem objectValues_singleton {α : Type} (k : String) (v : α) :
    objectValues [(k, v)] = [v] := by
  cases h : arrayIndex? k <;> simp [objectValues, ownEntries, h]

/-- In a result of `createRequestDetails`, `blocked.entitiesCount` is the number of
distinct naming-rule keys of the requests with a `blocked` member. -/
theorem createRequestDetails_blocked_entitiesCount (env : Collaborators)
    (requests : List DetectedRequest) (s : List String) (out : RequestDetails)
    (h : createRequestDetails env requests s = Except.ok out) :
    out.blocked.entitiesCount =
      (((requests.filter (fun r => r.state.blocked)).map (displayNameOf env)).toFinset).card := by
  have hR := createRequestDetails_routed env requests s out h
  have hS : Reached env (requests.filter (fun r => r.state.blocked)) out.blocked :=
    hR.blocked ▸ reached_calls env _
  rw [reached_entitiesCount env _ out.blocked hS]
  congr 2
  rw [List.filter_eq_self]
  intro k hk
  obtain ⟨r, hr, rfl⟩ := List.mem_map.1 hk
  simpa using (hR.routable r (List.mem_of_mem_filter hr)).1

/-- A result of `createRequestDetails` for requests of which exactly one has a `blocked`
member and none has an `allowed` member. -/
theorem createRequestDetails_single_blocked (env : Collaborators)
    (requests : List DetectedRequest) (s : List String) (out : RequestDetails)
    (f : DetectedRequest) (h : createRequestDetails env requests s = Except.ok out)
    (hf : requests.filter (fun r => r.state.blocked) = [f])
    (hna : ∀ r ∈ requests, r.state.allowed = none) :
    out.blockedCount = 1 ∧ out.state true = states.protectionsOn_blocked ∧
    out.blockedCompanyNames =
      if f.ownerName = some "unknown" then [] else [displayNameOf env f] := by
  have hR := createRequestDetails_routed env requests s out h
  have hfmem : f ∈ requests := by
    have : f ∈ requests.filter (fun r => r.state.blocked) := by rw [hf]; simp
    exact List.mem_of_mem_filter this
  have hkey := (hR.routable f hfmem).1
  have hblocked : out.blocked = addRequestCall env AggregatedCompanyResponseData.fresh f := by
    rw [hR.blocked, hf]; rfl
  have hnone : ∀ key : String, requests.filter (hasReason key) = [] := by
    intro key
    rw [List.filter_eq_nil_iff]
    intro r hr
    simp [hasReason, hna r hr]
  have h1 : out.allowed.adClickAttribution = AggregatedCompanyResponseData.fresh := by
    rw [hR.adClickAttribution, hnone]; rfl
  have h2 : out.allowed.ownedByFirstParty = AggregatedCompanyResponseData.fresh := by
    rw [hR.ownedByFirstParty, hnone]; rfl
  have h3 : out.allowed.ruleException = AggregatedCompanyResponseData.fresh := by
    rw [hR.ruleException, hnone]; rfl
  have h4 : out.allowed.protectionDisabled = AggregatedCompanyResponseData.fresh := by
    rw [hR.protectionDisabled, hnone]; rfl
  have h5 : out.allowed.otherThirdPartyRequest = AggregatedCompanyResponseData.fresh := by
    rw [hR.otherThirdPartyRequest, hnone]; rfl
  have hb : out.blockedCount = 1 := by
    simp [RequestDetails.blockedCount, hblocked, addRequestCall_fresh env f hkey]
  have hs : out.allowedSpecialCount = 0 := by
    simp [RequestDetails.allowedSpecialCount, h1, h2, h3, h4,
      AggregatedCompanyResponseData.fresh]
  have hn : out.allowedNonSpecialCount = 0 := by
    simp [RequestDetails.allowedNonSpecialCount, h5, AggregatedCompanyResponseData.fresh]
  refine ⟨hb, by simp [RequestDetails.state, hb, hs, hn], ?_⟩
  simp only [RequestDetails.blockedCompanyNames, hblocked, addRequestCall_fresh env f hkey,
    objectValues_singleton]
  by_cases hu : f.ownerName = some "unknown"
  · simp [hu, AggregateCompanyData.addUrl, AggregateCompanyData.new, sortByPrevalence]
  · simp [hu, AggregateCompanyData.addUrl, AggregateCompanyData.new, sortByPrevalence]

/-- In a result of `createRequestDetails` the keys of `blocked` are keys of `all`, and
the counters of `blocked` do not exceed those of `all`. -/
theorem createRequestDetails_blocked_le_all (env : Collaborators)
    (requests : List DetectedRequest) (s : List String) (out : RequestDetails)
    (h : createRequestDetails env requests s = Except.ok out) :
    (∀ r ∈ requests, r.state.blocked = true →
      displayNameOf env r ∈ out.blocked.entities.map Prod.fst ∧
      displayNameOf env r ∈ out.all.entities.map Prod.fst) ∧
    (∀ k ∈ out.blocked.entities.map Prod.fst, k ∈ out.all.entities.map Prod.fst) ∧
    out.blocked.requestCount ≤ out.all.requestCount ∧
    out.blocked.entitiesCount ≤ out.all.entitiesCount := by
  have hR := createRequestDetails_routed env requests s out h
  have hA : Reached env requests out.all := hR.all ▸ reached_calls env requests
  have hB : Reached env (requests.filter (fun r => r.state.blocked)) out.blocked :=
    hR.blocked ▸ reached_calls env _
  have hsub : ∀ k ∈ out.blocked.entities.map Prod.fst, k ∈ out.all.entities.map Prod.fst := by
    intro k hk
    obtain ⟨hp, r, hr, hrk⟩ := (reached_mem_keys env _ _ hB k).1 hk
    exact (reached_mem_keys env _ _ hA k).2 ⟨hp, r, List.mem_of_mem_filter hr, hrk⟩
  refine ⟨?_, hsub, ?_, ?_⟩
  · intro r hr hb
    have hk := (hR.routable r hr).1
    exact ⟨hB.seen r (List.mem_filter.2 ⟨hr, by simpa using hb⟩) hk, hA.seen r hr hk⟩
  · rw [hA.requests, hB.requests]
    apply List.Sublist.length_le
    exact (List.filter_sublist _).filter _
  · rw [hA.count, hB.count, ← List.length_map out.all.entities Prod.fst,
      ← List.length_map out.blocked.entities Prod.fst,
      ← List.toFinset_card_of_nodup hA.nodup, ← List.toFinset_card_of_nodup hB.nodup]
    apply Finset.card_le_card
    intro k hk
    simp only [List.mem_toFinset] at hk ⊢
    exact hsub k hk

/-! ## Signs of the counts -/

theorem state_eq_table (r : RequestDetails) (p : Bool) :
    r.state p = stateDecisionTable p (decide (r.blockedCount > 0))
      (decide (r.allowedSpecialCount > 0)) (decide (r.allowedNonSpecialCount > 0)) := by
  cases p <;>
    by_cases hb : r.blockedCount > 0 <;>
    by_cases hs : r.allowedSpecialCount > 0 <;>
    by_cases hn : r.allowedNonSpecialCount > 0 <;>
    simp [RequestDetails.state, stateDecisionTable, hb, hs, hn, states.protectionsOn,
      states.protectionsOn_blocked, states.protectionsOn_blocked_allowedTrackers,
      states.protectionsOn_blocked_allowedNonTrackers,
      states.protectionsOn_blocked_allowedTrackers_allowedNonTrackers,
      states.protectionsOn_allowedTrackers, states.protectionsOn_allowedNonTrackers,
      states.protectionsOn_allowedTrackers_allowedNonTrackers, states.protectionsOff,
      states.protectionsOff_allowedTrackers, states.protectionsOff_allowedNonTrackers,
      states.protectionsOff_allowedTrackers_allowedNonTrackers]

/-- A reached bucket whose requests all have keys that are not inherited names has an
entity exactly when it received a request. -/
theorem reached_entitiesCount_pos (env : Collaborators) (l : List DetectedRequest)
    (S : AggregatedCompanyResponseData) (hS : Reached env l S)
    (hk : ∀ r ∈ l, displayNameOf env r ∉ objectPrototypeKeys) :
    0 < S.entitiesCount ↔ ∃ r, r ∈ l := by
  rw [hS.count]
  constructor
  · intro hpos
    obtain ⟨p, hp⟩ := List.exists_mem_of_length_pos hpos
    have hkey : p.1 ∈ S.entities.map Prod.fst := List.mem_map.2 ⟨p, hp, rfl⟩
    obtain ⟨_, r, hr, _⟩ := (reached_mem_keys env l S hS p.1).1 hkey
    exact ⟨r, hr⟩
  · rintro ⟨r, hr⟩
    have hkey := hS.seen r hr (hk r hr)
    obtain ⟨p, hp, _⟩ := List.mem_map.1 hkey
    exact List.length_pos_of_mem hp

theorem routed_bucket_pos (env : Collaborators) (requests : List DetectedRequest)
    (s : List String) (out : RequestDetails) (hR : Routed env s requests out)
    (p : DetectedRequest → Bool) (b : AggregatedCompanyResponseData)
    (hb : b = addRequestCalls env AggregatedCompanyResponseData.fresh (requests.filter p)) :
    0 < b.entitiesCount ↔ ∃ r ∈ requests, p r = true := by
  have hS : Reached env (requests.filter p) b := hb ▸ reached_calls env _
  rw [reached_entitiesCount_pos env _ b hS
    (fun r hr => (hR.routable r (List.mem_of_mem_filter hr)).1)]
  constructor
  · rintro ⟨r, hr⟩
    exact ⟨r, List.mem_of_mem_filter hr, (List.mem_filter.1 hr).2⟩
  · rintro ⟨r, hr, hp⟩
    exact ⟨r, List.mem_filter.2 ⟨hr, hp⟩⟩

/-- In a result of `createRequestDetails` each of the three counts is positive exactly
when some request was routed to the buckets it reads. -/
theorem createRequestDetails_signs (env : Collaborators) (requests : List DetectedRequest)
    (s : List String) (out : RequestDetails)
    (h : createRequestDetails env requests s = Except.ok out) :
    (0 < out.blockedCount ↔ ∃ r ∈ requests, r.state.blocked = true) ∧
    (0 < out.allowedSpecialCount ↔ ∃ r ∈ requests, hasSpecialReason r = true) ∧
    (0 < out.allowedNonSpecialCount ↔
      ∃ r ∈ requests, hasReason "otherThirdPartyRequest" r = true) := by
  have hR := createRequestDetails_routed env requests s out h
  refine ⟨routed_bucket_pos env requests s out hR _ _ hR.blocked, ?_,
    routed_bucket_pos env requests s out hR _ _ hR.otherThirdPartyRequest⟩
  have h1 := routed_bucket_pos env requests s out hR _ _ hR.adClickAttribution
  have h2 := routed_bucket_pos env requests s out hR _ _ hR.ownedByFirstParty
  have h3 := routed_bucket_pos env requests s out hR _ _ hR.ruleException
  have h4 := routed_bucket_pos env requests s out hR _ _ hR.protectionDisabled
  unfold RequestDetails.allowedSpecialCount
  constructor
  · intro hpos
    have : 0 < out.allowed.adClickAttribution.entitiesCount ∨
        0 < out.allowed.ownedByFirstParty.entitiesCount ∨
        0 < out.allowed.ruleException.entitiesCount ∨
        0 < out.allowed.protectionDisabled.entitiesCount := by omega
    rcases this with h | h | h | h
    · obtain ⟨r, hr, hp⟩ := h1.1 h
      exact ⟨r, hr, by simp [hasSpecialReason, hp]⟩
    · obtain ⟨r, hr, hp⟩ := h2.1 h
      exact ⟨r, hr, by simp [hasSpecialReason, hp]⟩
    · obtain ⟨r, hr, hp⟩ := h3.1 h
      exact ⟨r, hr, by simp [hasSpecialReason, hp]⟩
    · obtain ⟨r, hr, hp⟩ := h4.1 h
      exact ⟨r, hr, by simp [hasSpecialReason, hp]⟩
  · rintro ⟨r, hr, hp⟩
    simp only [hasSpecialReason, Bool.or_eq_true] at hp
    rcases hp with ((hp | hp) | hp) | hp
    · have := h1.2 ⟨r, hr, hp⟩
      omega
    · have := h2.2 ⟨r, hr, hp⟩
      omega
    · have := h3.2 ⟨r, hr, hp⟩
      omega
    · have := h4.2 ⟨r, hr, hp⟩
      omega

/-- A result of `createRequestDetails` for requests with a blocked one, one allowed as
an ordinary third-party request and none allowed with a special reason has the state
`protectionsOn_blocked_allowedNonTrackers` when protections are enabled. -/
theorem createRequestDetails_blocked_and_nonSpecial (env : Collaborators)
    (requests : List DetectedRequest) (s : List String) (out : RequestDetails)
    (h : createRequestDetails env requests s = Except.ok out)
    (hb : ∃ r ∈ requests, r.state.blocked = true)
    (hn : ∃ r ∈ requests, hasReason "otherThirdPartyRequest" r = true)
    (hs : ∀ r ∈ requests, hasSpecialReason r = false) :
    out.state true = "protectionsOn_blocked_allowedNonTrackers" := by
  obtain ⟨h1, h2, h3⟩ := createRequestDetails_signs env requests s out h
  have hb1 : out.blockedCount > 0 := h1.2 hb
  have hn1 : out.allowedNonSpecialCount > 0 := h3.2 hn
  have hs1 : ¬ out.allowedSpecialCount > 0 := by
    intro hpos
    obtain ⟨r, hr, hp⟩ := h2.1 hpos
    rw [hs r hr] at hp
    exact Bool.noConfusion hp
  rw [state_eq_table]
  simp [hb1, hn1, hs1, stateDecisionTable]

/-! ## Ingestion -/

theorem getD_nil_eq_match (o : Option (List String)) :
    o.getD [] = (match o with
      | some l => l
      | none => []) := by
  cases o <;> rfl

theorem fromMultiJsonLoop_of_valid {Payload : Type} (parse : Payload → Option RequestData)
    (inputs : List Payload) :
    ∀ (datas : List RequestData) (requests : List DetectedRequest) (surrogates : List String),
      inputs.map parse = datas.map some →
      fromMultiJsonLoop parse inputs requests surrogates =
        some (requests ++ concatRequests datas, surrogates ++ concatSurrogates datas) := by
  induction inputs with
  | nil =>
    intro datas requests surrogates h
    cases datas with
    | nil => simp [fromMultiJsonLoop, concatRequests, concatSurrogates]
    | cons d ds => simp at h
  | cons input rest ih =>
    intro datas requests surrogates h
    cases datas with
    | nil => simp at h
    | cons d ds =>
      simp only [List.map_cons, List.cons.injEq] at h
      obtain ⟨hd, hrest⟩ := h
      simp only [fromMultiJsonLoop, hd]
      rw [ih ds _ _ hrest, getD_nil_eq_match]
      simp [concatRequests, concatSurrogates, List.append_assoc]

theorem fromMultiJsonLoop_of_invalid {Payload : Type} (parse : Payload → Option RequestData)
    (inputs : List Payload) :
    ∀ (requests : List DetectedRequest) (surrogates : List String),
      (∃ j ∈ inputs, parse j = none) →
      fromMultiJsonLoop parse inputs requests surrogates = none := by
  induction inputs with
  | nil =>
    intro requests surrogates h
    obtain ⟨j, hj, _⟩ := h
    simp at hj
  | cons input rest ih =>
    intro requests surrogates h
    cases hp : parse input with
    | none => simp [fromMultiJsonLoop, hp]
    | some d =>
      simp only [fromMultiJsonLoop, hp]
      apply ih
      obtain ⟨j, hj, hjn⟩ := h
      rcases List.mem_cons.1 hj with hj | hj
      · rw [hj, hp] at hjn
        exact Option.noConfusion hjn
      · exact ⟨j, hj, hjn⟩

/-! ## Identity keys -/

theorem lookup_propSet {α : Type} (o : List (String × α)) (k : String) (v : α) (u : String)
    (t : α) (h : (propSet o k v).lookup u = some t) :
    (u = k ∧ t = v) ∨ o.lookup u = some t := by
  unfold propSet at h
  split_ifs at h with h1 h2
  · rw [lookup_replaceOwn] at h
    by_cases hu : u = k
    · subst hu
      cases hl : o.lookup u with
      | none => simp [hl] at h
      | some w =>
        simp only [hl, if_true, Option.map_some', Option.some.injEq] at h
        exact Or.inl ⟨rfl, h.symm⟩
    · simp only [hu, if_false] at h
      exact Or.inr h
  · exact Or.inr h
  · rw [lookup_append_single] at h
    cases hl : o.lookup u with
    | some w =>
      simp only [hl] at h
      exact Or.inr h
    | none =>
      simp only [hl] at h
      by_cases hu : u = k
      · simp only [hu, if_true, Option.some.injEq] at h
        exact Or.inl ⟨hu, h.symm⟩
      · simp [hu] at h

theorem addUrl_urls_keyed (e : AggregateCompanyData) (k : String) (c : Option String)
    (he : ∀ u t, e.urls.lookup u = some t → t.url = u) :
    ∀ u t, (e.addUrl k c).urls.lookup u = some t → t.url = u := by
  intro u t h
  rcases lookup_propSet e.urls k _ u t h with ⟨hu, ht⟩ | h1
  · rw [ht, hu]
  · exact he u t h1

theorem urlsKeyed_fresh : UrlsKeyed AggregatedCompanyResponseData.fresh := by
  intro k e h
  simp [AggregatedCompanyResponseData.fresh] at h

theorem urlsKeyed_step (env : Collaborators) (b : AggregatedCompanyResponseData)
    (r : DetectedRequest) (hb : UrlsKeyed b) : UrlsKeyed (addRequestCall env b r) := by
  intro k e h
  cases hlook : b.entities.lookup (displayNameOf env r) with
  | some e0 =>
    rw [addRequestCall, addRequest_of_own env b r e0 hlook] at h
    simp only [lookup_replaceOwn] at h
    by_cases hk : k = displayNameOf env r
    · subst hk
      simp only [if_true, hlook, Option.map_some', Option.some.injEq] at h
      subst h
      exact addUrl_urls_keyed e0 _ _ (hb _ e0 hlook)
    · simp only [hk, if_false] at h
      exact hb k e h
  | none =>
    by_cases hkr : displayNameOf env r ∈ objectPrototypeKeys
    · rw [addRequestCall, addRequest_of_inherited env b r hlook hkr] at h
      exact hb k e h
    · rw [addRequestCall, addRequest_of_unseen env b r hlook hkr] at h
      simp only [lookup_append_single] at h
      cases hk : b.entities.lookup k with
      | some w =>
        simp only [hk, Option.some.injEq] at h
        subst h
        exact hb k w hk
      | none =>
        simp only [hk] at h
        by_cases hkk : k = displayNameOf env r
        · simp only [hkk, if_true, Option.some.injEq] at h
          subst h
          apply addUrl_urls_keyed
          intro u t hu
          simp [AggregateCompanyData.new] at hu
        · simp [hkk] at h

theorem urlsKeyed_calls (env : Collaborators) (l : List DetectedRequest) :
    UrlsKeyed (addRequestCalls env AggregatedCompanyResponseData.fresh l) := by
  induction l using List.reverseRecOn with
  | nil => exact urlsKeyed_fresh
  | append_singleton l r ih =>
    rw [addRequestCalls_append]
    exact urlsKeyed_step env _ r ih

/-! ## Sign patterns -/

theorem stateDecisionTable_true_injective :
    ∀ b s n b1 s1 n1 : Bool,
      stateDecisionTable true b s n = stateDecisionTable true b1 s1 n1 →
      b = b1 ∧ s = s1 ∧ n = n1 := by
  decide

theorem stateDecisionTable_false_blocked :
    ∀ b b1 s n : Bool, stateDecisionTable false b s n = stateDecisionTable false b1 s n := by
  decide

theorem decide_pos_eq_iff (x y : Nat) :
    decide (x > 0) = decide (y > 0) ↔ (0 < x ↔ 0 < y) := by
  by_cases hx : 0 < x <;> by_cases hy : 0 < y <;> simp [hx, hy]

theorem routable_patternRequests (env : Collaborators) (b s n : Bool) :
    ∀ r ∈ patternRequests b s n, Routable env r := by
  have h1 : Routable env blockedTracker :=
    ⟨by simp [displayNameOf, blockedTracker, strTruthy, objectPrototypeKeys],
      fun a ha => by simp [blockedTracker] at ha⟩
  have h2 : Routable env ruleExceptionRequest := by
    refine ⟨by simp [displayNameOf, ruleExceptionRequest, strTruthy, objectPrototypeKeys], ?_⟩
    intro a ha
    have : a = ⟨"ruleException"⟩ := by
      simpa [ruleExceptionRequest] using ha.symm
    subst this
    decide
  have h3 : Routable env exampleNet := by
    refine ⟨by simp [displayNameOf, exampleNet, strTruthy, objectPrototypeKeys], ?_⟩
    intro a ha
    have : a = ⟨"otherThirdPartyRequest"⟩ := by
      simpa [exampleNet] using ha.symm
    subst this
    decide
  intro r hr
  simp only [patternRequests, List.mem_append] at hr
  rcases hr with (hr | hr) | hr
  · cases b
    · simp at hr
    · simp only [if_true, List.mem_singleton] at hr
      rw [hr]; exact h1
  · cases s
    · simp at hr
    · simp only [if_true, List.mem_singleton] at hr
      rw [hr]; exact h2
  · cases n
    · simp at hr
    · simp only [if_true, List.mem_singleton] at hr
      rw [hr]; exact h3

/-- The request list with a chosen sign pattern is accepted by `createRequestDetails`,
and the state of the result is the table entry of the pattern. -/
theorem createRequestDetails_pattern (env : Collaborators) (sur : List String)
    (b s n p : Bool) :
    ∃ out, createRequestDetails env (patternRequests b s n) sur = Except.ok out ∧
      out.state p = stateDecisionTable p b s n := by
  obtain ⟨out, hout⟩ := (createRequestDetails_ok_iff env (patternRequests b s n) sur).2
    (routable_patternRequests env b s n)
  obtain ⟨h1, h2, h3⟩ := createRequestDetails_signs env _ sur out hout
  have hb : (∃ r ∈ patternRequests b s n, r.state.blocked = true) ↔ b = true := by
    cases b <;> cases s <;> cases n <;> decide
  have hs : (∃ r ∈ patternRequests b s n, hasSpecialReason r = true) ↔ s = true := by
    cases b <;> cases s <;> cases n <;> decide
  have hn : (∃ r ∈ patternRequests b s n, hasReason "otherThirdPartyRequest" r = true) ↔
      n = true := by
    cases b <;> cases s <;> cases n <;> decide
  have eb : decide (out.blockedCount > 0) = b := by
    cases b <;> simp [h1, hb]
  have es : decide (out.allowedSpecialCount > 0) = s := by
    cases s <;> simp [h2, hs]
  have en : decide (out.allowedNonSpecialCount > 0) = n := by
    cases n <;> simp [h3, hn]
  exact ⟨out, hout, by rw [state_eq_table, eb, es, en]⟩

/-! ## Order of the requests -/

/-- Buckets reached by two orderings of the same requests agree in the counters and in
the set of entity keys. -/
theorem reached_sameSummary (env : Collaborators) (l l1 : List DetectedRequest)
    (S S1 : AggregatedCompanyResponseData) (hS : Reached env l S) (hS1 : Reached env l1 S1)
    (hp : l.Perm l1) : SameSummary S S1 := by
  refine ⟨?_, ?_, ?_⟩
  · rw [reached_entitiesCount env l S hS, reached_entitiesCount env l1 S1 hS1]
    congr 1
    apply List.toFinset_eq_of_perm
    exact (hp.map _).filter _
  · rw [hS.requests, hS1.requests]
    exact (hp.filter _).length_eq
  · intro k
    rw [reached_mem_keys env l S hS k, reached_mem_keys env l1 S1 hS1 k]
    constructor
    · rintro ⟨h1, r, hr, hk⟩
      exact ⟨h1, r, hp.mem_iff.1 hr, hk⟩
    · rintro ⟨h1, r, hr, hk⟩
      exact ⟨h1, r, hp.mem_iff.2 hr, hk⟩

theorem routed_sameSummaries (env : Collaborators) (l l1 : List DetectedRequest)
    (s : List String) (o o1 : RequestDetails) (hR : Routed env s l o)
    (hR1 : Routed env s l1 o1) (hp : l.Perm l1) : SameSummaries o o1 := by
  have key : ∀ (p : DetectedRequest → Bool) (b b1 : AggregatedCompanyResponseData),
      b = addRequestCalls env AggregatedCompanyResponseData.fresh (l.filter p) →
      b1 = addRequestCalls env AggregatedCompanyResponseData.fresh (l1.filter p) →
      SameSummary b b1 := by
    intro p b b1 hb hb1
    exact reached_sameSummary env _ _ b b1 (hb ▸ reached_calls env _)
      (hb1 ▸ reached_calls env _) (hp.filter p)
  refine ⟨?_, key _ _ _ hR.blocked hR1.blocked,
    key _ _ _ hR.adClickAttribution hR1.adClickAttribution,
    key _ _ _ hR.ownedByFirstParty hR1.ownedByFirstParty,
    key _ _ _ hR.ruleException hR1.ruleException,
    key _ _ _ hR.protectionDisabled hR1.protectionDisabled,
    key _ _ _ hR.otherThirdPartyRequest hR1.otherThirdPartyRequest⟩
  exact reached_sameSummary env _ _ o.all o1.all (hR.all ▸ reached_calls env _)
    (hR1.all ▸ reached_calls env _) hp

/-- Two `RequestDetails` with the same bucket summaries have the same counts and the
same state. -/
theorem sameSummaries_counts (o o1 : RequestDetails) (h : SameSummaries o o1) :
    o.blockedCount = o1.blockedCount ∧ o.allowedSpecialCount = o1.allowedSpecialCount ∧
    o.allowedNonSpecialCount = o1.allowedNonSpecialCount ∧
    ∀ p, o.state p = o1.state p := by
  obtain ⟨_, hb, h1, h2, h3, h4, h5⟩ := h
  have eb : o.blockedCount = o1.blockedCount := hb.1
  have es : o.allowedSpecialCount = o1.allowedSpecialCount := by
    simp only [RequestDetails.allowedSpecialCount, h1.1, h2.1, h3.1, h4.1]
  have en : o.allowedNonSpecialCount = o1.allowedNonSpecialCount := h5.1
  refine ⟨eb, es, en, fun p => ?_⟩
  simp only [RequestDetails.state, eb, es, en]

/-- The outcome of `createRequestDetails` for a permutation of the requests: a result
with the same summaries when there is a result, the same raise otherwise. -/
theorem createRequestDetails_perm (env : Collaborators) (l l1 : List DetectedRequest)
    (s : List String) (hp : l.Perm l1) :
    (∀ out, createRequestDetails env l s = Except.ok out →
      ∃ out1, createRequestDetails env l1 s = Except.ok out1 ∧ SameSummaries out out1) ∧
    (∀ e, createRequestDetails env l s = Except.error e →
      createRequestDetails env l1 s = Except.error e) := by
  constructor
  · intro out h
    have hR := createRequestDetails_routed env l s out h
    obtain ⟨out1, h1⟩ := (createRequestDetails_ok_iff env l1 s).2
      (fun r hr => hR.routable r (hp.mem_iff.2 hr))
    exact ⟨out1, h1, routed_sameSummaries env l l1 s out out1 hR
      (createRequestDetails_routed env l1 s out1 h1) hp⟩
  · intro e h
    cases h1 : createRequestDetails env l1 s with
    | error e1 =>
      cases e
      cases e1
      rfl
    | ok out1 =>
      have hR1 := createRequestDetails_routed env l1 s out1 h1
      obtain ⟨out, hout⟩ := (createRequestDetails_ok_iff env l s).2
        (fun r hr => hR1.routable r (hp.mem_iff.1 hr))
      rw [hout] at h
      cases h

/-! ## Counters of a reached bucket -/

/-- In a reached bucket `entitiesCount` does not exceed `requestCount`, and one is zero
exactly when the other is. -/
theorem reached_counts (env : Collaborators) (l : List DetectedRequest)
    (S : AggregatedCompanyResponseData) (hS : Reached env l S) :
    S.entitiesCount ≤ S.requestCount ∧ (S.entitiesCount = 0 ↔ S.requestCount = 0) := by
  have hle : S.entitiesCount ≤ S.requestCount := by
    rw [reached_entitiesCount env l S hS, hS.requests]
    refine (List.toFinset_card_le _).trans ?_
    rw [List.filter_map, List.length_map]
    exact le_of_eq rfl
  refine ⟨hle, ?_⟩
  constructor
  · intro h0
    rw [hS.requests, List.length_eq_zero, List.filter_eq_nil_iff]
    intro r hr hk
    have hmem := hS.seen r hr (by simpa using hk)
    rw [hS.count, List.length_eq_zero] at h0
    rw [h0] at hmem
    simp at hmem
  · intro h0
    omega

/-! ## The enumeration order in full -/

/-- The order of `Object.keys`, `Object.values` and `for ... in`: the entries whose key
is an array index come first, in ascending numeric order of the index, and the other
entries follow in creation order. -/
theorem ownEntries_order {α : Type} (o : List (String × α)) :
    ∃ idx rest : List (String × α),
      ownEntries o = idx ++ rest ∧
      idx.Perm (o.filter (fun p => (arrayIndex? p.1).isSome)) ∧
      List.Pairwise (fun p q => ∀ i j, arrayIndex? p.1 = some i → arrayIndex? q.1 = some j →
        i ≤ j) idx ∧
      rest = o.filter (fun p => (arrayIndex? p.1).isNone) := by
  refine ⟨List.insertionSort indexLe (o.filter (fun p => (arrayIndex? p.1).isSome)),
    o.filter (fun p => (arrayIndex? p.1).isNone), rfl, List.perm_insertionSort _ _, ?_, rfl⟩
  have hs : List.Sorted indexLe
      (List.insertionSort indexLe (o.filter (fun p => (arrayIndex? p.1).isSome))) :=
    List.sorted_insertionSort indexLe _
  refine List.Pairwise.imp ?_ hs
  intro p q hpq i j hi hj
  have h : (arrayIndex? p.1).getD 0 ≤ (arrayIndex? q.1).getD 0 := hpq
  simpa [hi, hj] using h

theorem objectValues_order {α : Type} (o : List (String × α)) :
    ∃ idx rest : List (String × α),
      objectValues o = (idx ++ rest).map Prod.snd ∧
      idx.Perm (o.filter (fun p => (arrayIndex? p.1).isSome)) ∧
      List.Pairwise (fun p q => ∀ i j, arrayIndex? p.1 = some i → arrayIndex? q.1 = some j →
        i ≤ j) idx ∧
      rest = o.filter (fun p => (arrayIndex? p.1).isNone) := by
  obtain ⟨idx, rest, h1, h2, h3, h4⟩ := ownEntries_order o
  exact ⟨idx, rest, by rw [objectValues, h1], h2, h3, h4⟩

/-! ## Array indices and decimal notation -/

theorem decimalValue_snoc (cs : List Char) (d : Char) :
    decimalValue (cs ++ [d]) = 10 * decimalValue cs + (d.toNat - 48) := by
  simp [decimalValue, List.foldl_append]

theorem digitChar_spec (k : Nat) (h : k < 10) :
    (Nat.digitChar k).isDigit = true ∧ (Nat.digitChar k).toNat - 48 = k ∧
    (Nat.digitChar k = '0' → k = 0) := by
  interval_cases k <;> decide

theorem digitChar_of_isDigit (d : Char) (h : d.isDigit = true) :
    d.toNat - 48 < 10 ∧ Nat.digitChar (d.toNat - 48) = d := by
  have h1 : 48 ≤ d.toNat ∧ d.toNat ≤ 57 := by
    simp only [Char.isDigit, Bool.and_eq_true, decide_eq_true_eq] at h
    exact ⟨h.1, h.2⟩
  have h2 : d = Char.ofNat d.toNat := (Char.ofNat_toNat d).symm
  obtain ⟨lo, hi⟩ := h1
  refine ⟨by omega, ?_⟩
  generalize hn : d.toNat = n at *
  rw [h2]
  interval_cases n <;> rfl

theorem toDigitsCore_spec (fuel : Nat) :
    ∀ (n : Nat) (ds : List Char), n < fuel →
      ∃ cs, Nat.toDigitsCore 10 fuel n ds = cs ++ ds ∧ CanonicalDigits cs ∧ decimalValue cs = n ∧
        (cs.head? = some '0' → n = 0) := by
  induction fuel with
  | zero => intro n ds h; omega
  | succ fuel ih =>
    intro n ds h
    obtain ⟨hd1, hd2, hd3⟩ := digitChar_spec (n % 10) (Nat.mod_lt _ (by norm_num))
    by_cases hn : n / 10 = 0
    · refine ⟨[Nat.digitChar (n % 10)], by simp [Nat.toDigitsCore, hn], ?_, ?_, ?_⟩
      · exact ⟨by simp, by simp [hd1], Or.inr rfl⟩
      · simp [decimalValue, hd2]; omega
      · intro h0
        simp at h0
        have := hd3 h0
        omega
    · have hlt : n / 10 < fuel := by omega
      obtain ⟨cs, hcs, hcan, hval, hhead⟩ := ih (n / 10) (Nat.digitChar (n % 10) :: ds) hlt
      refine ⟨cs ++ [Nat.digitChar (n % 10)], by simp [Nat.toDigitsCore, hn, hcs], ?_, ?_, ?_⟩
      · obtain ⟨hne, hall, _⟩ := hcan
        refine ⟨by simp, by simp [hall, hd1], Or.inl ?_⟩
        intro h0
        rw [List.head?_append_of_ne_nil _ hne] at h0
        exact hn (hhead h0)
      · rw [decimalValue_snoc, hval, hd2]; omega
      · intro h0
        rw [List.head?_append_of_ne_nil _ hcan.1] at h0
        exact absurd (hhead h0) hn

theorem arrayIndex?_toString (n : Nat) (h : n < 4294967295) :
    arrayIndex? (toString n) = some n := by
  obtain ⟨cs, hcs, hcan, hval, _⟩ := toDigitsCore_spec (n + 1) n [] (Nat.lt_succ_self n)
  have hdata : (toString n).data = cs := by
    show (Nat.toDigits 10 n).asString.data = cs
    simp [Nat.toDigits, hcs, List.asString]
  obtain ⟨h1, h2, h3⟩ := hcan
  simp [arrayIndex?, hdata, h1, h2, h3, hval, h]

theorem toDigitsCore_eq (n : Nat) :
    ∀ (fuel : Nat) (ds : List Char), n < fuel →
      Nat.toDigitsCore 10 fuel n ds = Nat.toDigits 10 n ++ ds := by
  induction n using Nat.strong_induction_on with
  | _ n ih =>
    intro fuel ds h
    obtain ⟨f, rfl⟩ : ∃ f, fuel = f + 1 := ⟨fuel - 1, by omega⟩
    by_cases hn : n / 10 = 0
    · simp [Nat.toDigits, Nat.toDigitsCore, hn]
    · have hlt : n / 10 < n := by omega
      have h1 := ih (n / 10) hlt f (Nat.digitChar (n % 10) :: ds) (by omega)
      have h2 := ih (n / 10) hlt n [Nat.digitChar (n % 10)] hlt
      simp only [Nat.toDigits, Nat.toDigitsCore, hn, if_false] at h1 h2 ⊢
      rw [h1, h2]
      simp

theorem toDigits_step (n : Nat) (hn : n / 10 ≠ 0) :
    Nat.toDigits 10 n = Nat.toDigits 10 (n / 10) ++ [Nat.digitChar (n % 10)] := by
  have hlt : n / 10 < n := by omega
  have h := toDigitsCore_eq (n / 10) n [Nat.digitChar (n % 10)] hlt
  rw [← h]
  simp [Nat.toDigits, Nat.toDigitsCore, hn]

theorem toDigits_small (n : Nat) (hn : n / 10 = 0) :
    Nat.toDigits 10 n = [Nat.digitChar (n % 10)] := by
  simp [Nat.toDigits, Nat.toDigitsCore, hn]

theorem toDigits_decimalValue (cs : List Char) (h : CanonicalDigits cs) :
    Nat.toDigits 10 (decimalValue cs) = cs := by
  induction cs using List.reverseRecOn with
  | nil => exact absurd rfl h.1
  | append_singleton cs d ih =>
    obtain ⟨_, hall, hhead⟩ := h
    have hall1 : cs.all Char.isDigit = true ∧ d.isDigit = true := by
      simpa using hall
    obtain ⟨hdlt, hdc⟩ := digitChar_of_isDigit d hall1.2
    rw [decimalValue_snoc]
    by_cases hcs : cs = []
    · subst hcs
      have : decimalValue [] = 0 := rfl
      rw [this, toDigits_small _ (by omega)]
      simp only [Nat.mul_zero, Nat.zero_add, List.nil_append]
      rw [Nat.mod_eq_of_lt hdlt, hdc]
    · have hh : cs.head? ≠ some '0' := by
        rcases hhead with h1 | h1
        · rwa [List.head?_append_of_ne_nil _ hcs] at h1
        · exfalso
          have hpos : 0 < cs.length := List.length_pos.2 hcs
          have hlen : (cs ++ [d]).length = cs.length + 1 := by simp
          omega
      have hcan : CanonicalDigits cs := ⟨hcs, hall1.1, Or.inl hh⟩
      have hih := ih hcan
      have hv : decimalValue cs ≠ 0 := by
        intro h0
        rw [h0] at hih
        apply hh
        rw [← hih]
        rfl
      have hdiv : (10 * decimalValue cs + (d.toNat - 48)) / 10 = decimalValue cs := by omega
      have hmod : (10 * decimalValue cs + (d.toNat - 48)) % 10 = d.toNat - 48 := by omega
      rw [toDigits_step _ (by rw [hdiv]; exact hv), hdiv, hmod, hih, hdc]

theorem arrayIndex?_eq_some_iff (k : String) (n : Nat) :
    arrayIndex? k = some n ↔ n < 4294967295 ∧ k = toString n := by
  constructor
  · intro h
    unfold arrayIndex? at h
    split_ifs at h with hc
    obtain ⟨h1, h2, h3, h4⟩ := hc
    have hn : decimalValue k.data = n := by simpa using h
    refine ⟨hn ▸ h4, ?_⟩
    apply String.ext
    have := toDigits_decimalValue k.data ⟨h1, h2, h3⟩
    rw [hn] at this
    show k.data = (Nat.toDigits 10 n).asString.data
    simp [List.asString, this]
  · rintro ⟨h, rfl⟩
    exact arrayIndex?_toString n h

/-! ## The state derivation -/

/-- C1: for every `RequestDetails` and every `protectionsEnabled`, `state` returns the
entry of the specification's decision table selected by the signs of `blockedCount()`,
`allowedSpecialCount()` and `allowedNonSpecialCount()`; and the `RequestDetails` built
from an empty request list has state `protectionsOn` when protections are enabled. -/
theorem state_eq_decisionTable (env : Collaborators) (surrogates : List String) :
    (∀ (r : RequestDetails) (p : Bool),
      r.state p = stateDecisionTable p (decide (r.blockedCount > 0))
        (decide (r.allowedSpecialCount > 0)) (decide (r.allowedNonSpecialCount > 0))) ∧
    (∃ r, createRequestDetails env [] surrogates = Except.ok r ∧
      r.state true = "protectionsOn") := by
  refine ⟨?_, ?_⟩
  · intro r p
    cases p <;>
      by_cases hb : r.blockedCount > 0 <;>
      by_cases hs : r.allowedSpecialCount > 0 <;>
      by_cases hn : r.allowedNonSpecialCount > 0 <;>
      simp [RequestDetails.state, stateDecisionTable, hb, hs, hn, states.protectionsOn,
        states.protectionsOn_blocked, states.protectionsOn_blocked_allowedTrackers,
        states.protectionsOn_blocked_allowedNonTrackers,
        states.protectionsOn_blocked_allowedTrackers_allowedNonTrackers,
        states.protectionsOn_allowedTrackers, states.protectionsOn_allowedNonTrackers,
        states.protectionsOn_allowedTrackers_allowedNonTrackers, states.protectionsOff,
        states.protectionsOff_allowedTrackers, states.protectionsOff_allowedNonTrackers,
        states.protectionsOff_allowedTrackers_allowedNonTrackers]
  · exact ⟨RequestDetails.new surrogates, rfl, rfl⟩

/-- C2: `state` is total and returns one of the twelve values of `states`, which are
pairwise distinct; every triple of natural numbers occurs as the three counts of some
`RequestDetails`, so this covers every triple of counts. -/
theorem state_mem_statesValues :
    (∀ (r : RequestDetails) (p : Bool), r.state p ∈ statesValues) ∧
    statesValues.Nodup ∧ statesValues.length = 12 ∧
    (∀ b s n : Nat, ∃ r : RequestDetails,
      r.blockedCount = b ∧ r.allowedSpecialCount = s ∧ r.allowedNonSpecialCount = n) := by
  refine ⟨?_, by decide, rfl, ?_⟩
  · intro r p
    unfold RequestDetails.state
    simp only [statesValues]
    split_ifs <;> simp
  · intro b s n
    refine ⟨{ (RequestDetails.new []) with
        blocked := { AggregatedCompanyResponseData.fresh with entitiesCount := b }
        allowed := { AllowedBuckets.fresh with
          adClickAttribution := { AggregatedCompanyResponseData.fresh with entitiesCount := s }
          otherThirdPartyRequest :=
            { AggregatedCompanyResponseData.fresh with entitiesCount := n } } }, rfl, ?_, rfl⟩
    simp [RequestDetails.allowedSpecialCount, AllowedBuckets.fresh,
      AggregatedCompanyResponseData.fresh]

/-! ## Routing -/

/-- C3: the code raises where the claim promises a routed result.  A one-request list
whose request is keyed by `constructor`, a name every object inherits, makes
`createRequestDetails` raise a `TypeError` in `all.addRequest`, whatever the
collaborators are, so no request count exists. -/
theorem createRequestDetails_raises_on_inherited_key (env : Collaborators)
    (surrogates : List String) :
    displayNameOf env constructorHost = "constructor" ∧
    createRequestDetails env [constructorHost] surrogates =
      Except.error JsError.typeError := by
  have hk : displayNameOf env constructorHost = "constructor" := by
    simp [displayNameOf, constructorHost, strTruthy]
  refine ⟨hk, ?_⟩
  have hall : AggregatedCompanyResponseData.fresh.addRequest env constructorHost =
      Except.error JsError.typeError :=
    addRequest_of_inherited env _ _ rfl (by rw [hk]; decide)
  simp [createRequestDetails, routeAll, routeRequest, RequestDetails.new, hall]

/-- C4, as stated, fails: a request whose state has both a `blocked` member and an
`allowed` member with reason `ruleException` is added to `blocked` and also to the
allowed bucket `ruleException`, whatever the collaborators are. -/
theorem blocked_request_also_routed_to_allowed :
    (∀ (env : Collaborators) (s : List String), ∃ out,
      createRequestDetails env [blockedAndAllowed] s = Except.ok out ∧
      out.blocked.requestCount = 1 ∧
      out.blocked.entities.map Prod.fst = ["tracker.example"]) ∧
    (∀ (env : Collaborators) (s : List String), ∃ out,
      createRequestDetails env [blockedAndAllowed] s = Except.ok out ∧
      out.allowed.ruleException.requestCount = 1 ∧
      out.allowed.ruleException.entities.map Prod.fst = ["tracker.example"]) := by
  have hk : ∀ env : Collaborators, displayNameOf env blockedAndAllowed = "tracker.example" :=
    fun env => by simp [displayNameOf, blockedAndAllowed, strTruthy]
  have hr : ∀ env : Collaborators, Routable env blockedAndAllowed := by
    intro env
    refine ⟨by rw [hk env]; decide, ?_⟩
    intro a ha
    have : a = ⟨"ruleException"⟩ := by
      simpa [blockedAndAllowed] using ha.symm
    subst this
    decide
  have hcall : ∀ env : Collaborators,
      addRequestCall env AggregatedCompanyResponseData.fresh blockedAndAllowed =
        { entities := [("tracker.example",
            (AggregateCompanyData.new env none "tracker.example" 0).addUrl
              (urlHostnameOf env blockedAndAllowed) none)]
          entitiesCount := 1
          requestCount := 1 } := by
    intro env
    have h := addRequest_of_unseen env AggregatedCompanyResponseData.fresh blockedAndAllowed
      rfl (by rw [hk env]; decide)
    rw [addRequestCall, h, hk env]
    rfl
  have hrun : ∀ (env : Collaborators) (s : List String),
      createRequestDetails env [blockedAndAllowed] s =
        Except.ok (routeCall env (RequestDetails.new s) blockedAndAllowed) := by
    intro env s
    simp [createRequestDetails, routeAll, routeRequest_of_routable env _ _ (hr env)]
  refine ⟨fun env s => ⟨_, hrun env s, ?_⟩, fun env s => ⟨_, hrun env s, ?_⟩⟩
  · have hb : (routeCall env (RequestDetails.new s) blockedAndAllowed).blocked =
        addRequestCall env AggregatedCompanyResponseData.fresh blockedAndAllowed := rfl
    rw [hb, hcall env]
    exact ⟨rfl, rfl⟩
  · have hb : (routeCall env (RequestDetails.new s) blockedAndAllowed).allowed.ruleException =
        addRequestCall env AggregatedCompanyResponseData.fresh blockedAndAllowed := rfl
    rw [hb, hcall env]
    exact ⟨rfl, rfl⟩

/-- C4, amended: in a loop iteration of `createRequestDetails` that completes, a request
whose state has a `blocked` member is added to `all` and to `blocked`; the `allowed`
step is independent of this: with no `allowed` member, or one whose reason is not one
of the five bucket names, the allowed-reason buckets are unchanged, and with an
`allowed` member whose reason is a bucket name the request is also added to that
bucket. -/
theorem routeRequest_blocked (env : Collaborators) (o o1 : RequestDetails)
    (r : DetectedRequest) (hb : r.state.blocked = true)
    (h : routeRequest env o r = Except.ok o1) :
    o.all.addRequest env r = Except.ok o1.all ∧
    o.blocked.addRequest env r = Except.ok o1.blocked ∧
    (r.state.allowed = none → o1.allowed = o.allowed) ∧
    (∀ a, r.state.allowed = some a → a.reason ∉ allowedKeys → o1.allowed = o.allowed) ∧
    (∀ a, r.state.allowed = some a → a.reason ∈ allowedKeys →
      ∃ bucket b1, o.allowed.get? a.reason = some bucket ∧
        bucket.addRequest env r = Except.ok b1 ∧
        o1.allowed = o.allowed.set a.reason b1) := by
  unfold routeRequest at h
  cases hA : o.all.addRequest env r with
  | error e => simp [hA] at h
  | ok a =>
    simp only [hA] at h
    cases hB : o.blocked.addRequest env r with
    | error e => simp [routeBlocked, hb, hB] at h
    | ok b =>
      simp only [routeBlocked, hb, hB, if_true] at h
      obtain ⟨h1, h2, h3, h4, h5⟩ := routeAllowed_ok_cases env _ o1 r h
      exact ⟨by rw [h1], by rw [h2], h3, h4, h5⟩

/-- Witness for C4: the request with both members, routed into a new `RequestDetails`. -/
theorem routeRequest_blocked_witness :
    blockedAndAllowed.state.blocked = true ∧
    routeRequest exampleCollaborators (RequestDetails.new []) blockedAndAllowed =
      Except.ok (routeCall exampleCollaborators (RequestDetails.new []) blockedAndAllowed) ∧
    (RequestDetails.new []).blocked.addRequest exampleCollaborators blockedAndAllowed =
      Except.ok
        (routeCall exampleCollaborators (RequestDetails.new []) blockedAndAllowed).blocked :=
  ⟨rfl, by rfl,
   (routeRequest_blocked exampleCollaborators (RequestDetails.new [])
      (routeCall exampleCollaborators (RequestDetails.new []) blockedAndAllowed)
      blockedAndAllowed rfl (by rfl)).2.1⟩

/-- C5: the code raises where the claim promises a silent skip.  A request allowed with
reason `toString` passes the test `reason in output.allowed` through the inherited
member, and calling `addRequest` on that member raises a `TypeError`, whatever the
collaborators are. -/
theorem createRequestDetails_raises_on_inherited_reason (env : Collaborators)
    (surrogates : List String) :
    inAllowed "toString" = true ∧ "toString" ∉ allowedKeys ∧
    createRequestDetails env [toStringReason] surrogates =
      Except.error JsError.typeError := by
  refine ⟨by decide, by decide, ?_⟩
  have hk : displayNameOf env toStringReason = "tracker.example" := by
    simp [displayNameOf, toStringReason, strTruthy]
  have hall := addRequest_of_unseen env AggregatedCompanyResponseData.fresh toStringReason rfl
    (by rw [hk]; decide)
  have hin : inAllowed "toString" = true := by decide
  have hstate : toStringReason.state = { blocked := false, allowed := some ⟨"toString"⟩ } :=
    rfl
  simp only [createRequestDetails, routeAll, routeRequest, RequestDetails.new, hall]
  simp [routeBlocked, routeAllowed, hstate, hin, AllowedBuckets.get?]

/-! ## The naming rule -/

/-- C6, as stated, fails: a request whose `entityName` is the empty string is keyed by
its `eTLDplus1` whatever the collaborators are, not by `removeTLD` of the empty string;
and a request without `entityName` whose `eTLDplus1` is the empty string is keyed by its
url, not by the empty string. -/
theorem displayName_empty_string_not_used :
    (∀ env : Collaborators, displayNameOf env emptyEntityName = "example.net") ∧
    displayNameOf exampleCollaborators emptyEntityName ≠
      exampleCollaborators.removeTLD "" ∧
    (∀ env : Collaborators,
      displayNameOf env emptyETLDplus1 = "https://cdn.example.net/a.js") ∧
    emptyETLDplus1.eTLDplus1 = some "" := by
  refine ⟨fun env => ?_, by decide, fun env => ?_, rfl⟩
  · simp [displayNameOf, emptyEntityName, strTruthy]
  · simp [displayNameOf, emptyETLDplus1, strTruthy]

/-- C6, amended: the key under which `addRequest` aggregates a request is
`removeTLD(entityName)` when `entityName` is present and not the empty string; otherwise
`eTLDplus1` verbatim when that is present and not the empty string; otherwise the raw
url; and a call that completes leaves an entity under that key. -/
theorem displayName_naming_rule (env : Collaborators) (r : DetectedRequest) :
    (∀ e, r.entityName = some e → e ≠ "" → displayNameOf env r = env.removeTLD e) ∧
    (∀ t, (r.entityName = none ∨ r.entityName = some "") → r.eTLDplus1 = some t → t ≠ "" →
      displayNameOf env r = t) ∧
    ((r.entityName = none ∨ r.entityName = some "") →
      (r.eTLDplus1 = none ∨ r.eTLDplus1 = some "") → displayNameOf env r = r.url) ∧
    (∀ b b1 : AggregatedCompanyResponseData, b.addRequest env r = Except.ok b1 →
      ∃ e, b1.entities.lookup (displayNameOf env r) = some e) := by
  refine ⟨?_, ?_, ?_, fun b b1 h => addRequest_ok_lookup env b b1 r h⟩
  · intro e he hne
    simp [displayNameOf, strTruthy, he, hne]
  · intro t hn ht hne
    rcases hn with hn | hn <;> simp [displayNameOf, strTruthy, hn, ht, hne]
  · intro hn ht
    rcases hn with hn | hn <;> rcases ht with ht | ht <;>
      simp [displayNameOf, strTruthy, hn, ht]

/-- Witness for C6: the request `acmePixel`, whose `entityName` is `Acme.com`, is
aggregated under `removeTLD("Acme.com")`, which is `Acme`. -/
theorem displayName_naming_rule_witness :
    acmePixel.entityName = some "Acme.com" ∧ "Acme.com" ≠ "" ∧
    displayNameOf exampleCollaborators acmePixel = "Acme" :=
  ⟨rfl, by decide,
   (displayName_naming_rule exampleCollaborators acmePixel).1 "Acme.com" rfl (by decide)⟩

/-! ## Counting and bucket counters -/

/-- C7: the code raises where the claim promises a count.  The two requests have the
distinct naming-rule keys `example.net` and `constructor`; `createRequestDetails`
raises a `TypeError` on the second, whatever the collaborators are, so there is no
`all.entitiesCount`. -/
theorem createRequestDetails_raises_instead_of_counting (env : Collaborators)
    (surrogates : List String) :
    [exampleNet, constructorHost].map (displayNameOf env) = ["example.net", "constructor"] ∧
    createRequestDetails env [exampleNet, constructorHost] surrogates =
      Except.error JsError.typeError := by
  have hk1 : displayNameOf env exampleNet = "example.net" := by
    simp [displayNameOf, exampleNet, strTruthy]
  have hk2 : displayNameOf env constructorHost = "constructor" := by
    simp [displayNameOf, constructorHost, strTruthy]
  refine ⟨by simp [hk1, hk2], ?_⟩
  have hr1 : Routable env exampleNet := by
    refine ⟨by rw [hk1]; decide, ?_⟩
    intro a ha
    have : a = ⟨"otherThirdPartyRequest"⟩ := by
      simpa [exampleNet] using ha.symm
    subst this
    decide
  have hreached : Reached env [exampleNet]
      (addRequestCall env AggregatedCompanyResponseData.fresh exampleNet) :=
    reached_calls env [exampleNet]
  have herr := addRequest_error_of_reached env [exampleNet] _ constructorHost hreached
    (by rw [hk2]; decide)
  have hall : (routeCall env (RequestDetails.new surrogates) exampleNet).all =
      addRequestCall env AggregatedCompanyResponseData.fresh exampleNet := rfl
  have hstep : routeRequest env (routeCall env (RequestDetails.new surrogates) exampleNet)
      constructorHost = Except.error JsError.typeError := by
    unfold routeRequest
    rw [hall, herr]
  simp only [createRequestDetails, routeAll, routeRequest_of_routable env _ _ hr1, hstep]

/-- C8: the code raises where the claim promises that every call counts.  A call of
`addRequest` on a fresh bucket with a request keyed by `constructor` raises a
`TypeError`, whatever the collaborators are; the bucket is left with `requestCount` 0
after this one call. -/
theorem addRequest_raise_not_counted (env : Collaborators) :
    AggregatedCompanyResponseData.fresh.addRequest env constructorHost =
      Except.error JsError.typeError ∧
    (addRequestCalls env AggregatedCompanyResponseData.fresh [constructorHost]).requestCount
      = 0 ∧
    [constructorHost].length = 1 := by
  have hk : displayNameOf env constructorHost = "constructor" := by
    simp [displayNameOf, constructorHost, strTruthy]
  have herr : AggregatedCompanyResponseData.fresh.addRequest env constructorHost =
      Except.error JsError.typeError :=
    addRequest_of_inherited env _ _ rfl (by rw [hk]; decide)
  refine ⟨herr, ?_, rfl⟩
  simp only [addRequestCalls, List.foldl, addRequestCall, herr]
  rfl

/-! ## First write wins -/

/-- C9: after any sequence of `addRequest` calls on a fresh bucket, an entity stored
under key `k` has the prevalence of the first request of the sequence whose naming-rule
key is `k`, or 0 when that request has none, and that request's `ownerName` as its
name; and a further call with any request leaves the entity in place with the same
prevalence and name. -/
theorem prevalence_first_write_wins (env : Collaborators) (requests : List DetectedRequest)
    (k : String) (e : AggregateCompanyData)
    (h : (addRequestCalls env AggregatedCompanyResponseData.fresh requests).entities.lookup k
      = some e) :
    (∃ first, firstWithKey env requests k = some first ∧
      (∀ v, first.prevalence = some v → e.prevalence = v) ∧
      (first.prevalence = none → e.prevalence = 0) ∧
      e.name = first.ownerName) ∧
    (∀ later : DetectedRequest, ∃ e1,
      (addRequestCall env (addRequestCalls env AggregatedCompanyResponseData.fresh requests)
        later).entities.lookup k = some e1 ∧
      e1.prevalence = e.prevalence ∧ e1.name = e.name) := by
  refine ⟨?_, ?_⟩
  · obtain ⟨_, first, hf, hn, hv, _, _⟩ := (reached_calls env requests).entry k e h
    refine ⟨first, hf, ?_, ?_, hn⟩
    · intro v hfv
      simp [hv, hfv]
    · intro hfn
      simp [hv, hfn]
  · intro later
    obtain ⟨e1, h1, hn, hv, _, _⟩ := addRequestCall_keeps_identity env _ later k e h
    exact ⟨e1, h1, hv, hn⟩

/-- Witness for C9: two requests of the entity `Acme`, the first with prevalence 5 and
the second with prevalence 9, leave the entity with prevalence 5. -/
theorem prevalence_first_write_wins_witness :
    (addRequestCalls exampleCollaborators AggregatedCompanyResponseData.fresh
      [acmePixel, acmeLib]).entities.lookup "Acme" =
      some { name := some "Acme Corporation", displayName := "Acme", prevalence := 5,
             normalizedName := "acme",
             urls := [("acme.com", { url := "acme.com", category := some "Advertising" }),
                      ("cdn.acme.com",
                        { url := "cdn.acme.com", category := some "Analytics" })] } ∧
    (∃ first, firstWithKey exampleCollaborators [acmePixel, acmeLib] "Acme" = some first ∧
      (∀ v, first.prevalence = some v → (5 : ℚ) = v) ∧
      (first.prevalence = none → (5 : ℚ) = 0) ∧
      some "Acme Corporation" = first.ownerName) :=
  ⟨by decide,
   (prevalence_first_write_wins exampleCollaborators [acmePixel, acmeLib] "Acme"
      { name := some "Acme Corporation", displayName := "Acme", prevalence := 5,
        normalizedName := "acme",
        urls := [("acme.com", { url := "acme.com", category := some "Advertising" }),
                 ("cdn.acme.com", { url := "cdn.acme.com", category := some "Analytics" })] }
      (by decide)).1⟩

/-! ## Tracker urls -/

/-- C10, as stated, fails: the entity `Acme` holds the url key `acme.com` with category
`Advertising`; after `addUrl("acme.com", "Analytics")` the entry stored under that key
has category `Analytics`. -/
theorem addUrl_overwrites_category :
    acmeEntity.urls.lookup "acme.com" =
      some { url := "acme.com", category := some "Advertising" } ∧
    (acmeEntity.addUrl "acme.com" (some "Analytics")).urls.lookup "acme.com" =
      some { url := "acme.com", category := some "Analytics" } := by
  decide

/-- C10, amended: when the url key `u` is already present in an entity's `urls`, a later
`addUrl(u, c)` keeps the key in its place and stores under it a new `TrackerUrl` with
url `u` and the category `c` of the later call (last write wins); every other entry is
unchanged; and an `addRequest` whose request is aggregated under that entity with url
key `u` completes and does exactly this `addUrl`. -/
theorem addUrl_last_write_wins (e : AggregateCompanyData) (u : String) (c : Option String)
    (t : TrackerUrl) (h : e.urls.lookup u = some t) :
    (e.addUrl u c).urls.lookup u = some { url := u, category := c } ∧
    (e.addUrl u c).urls.map Prod.fst = e.urls.map Prod.fst ∧
    (∀ u1, u1 ≠ u → (e.addUrl u c).urls.lookup u1 = e.urls.lookup u1) ∧
    (∀ (env : Collaborators) (b : AggregatedCompanyResponseData) (r : DetectedRequest),
      b.entities.lookup (displayNameOf env r) = some e → urlHostnameOf env r = u →
      r.category = c →
      ∃ b1, b.addRequest env r = Except.ok b1 ∧
        b1.entities.lookup (displayNameOf env r) = some (e.addUrl u c)) := by
  have hset : (e.addUrl u c).urls = replaceOwn e.urls u { url := u, category := c } := by
    simp [AggregateCompanyData.addUrl, propSet, h]
  refine ⟨?_, ?_, ?_, ?_⟩
  · rw [hset, lookup_replaceOwn]; simp [h]
  · rw [hset, map_fst_replaceOwn]
  · intro u1 hu1
    rw [hset, lookup_replaceOwn]; simp [hu1]
  · intro env b r he hu hc
    refine ⟨_, addRequest_of_own env b r e he, ?_⟩
    simp [lookup_replaceOwn, he, hu, hc]

/-- Witness for C10: the entity `Acme` with the url key `acme.com`. -/
theorem addUrl_last_write_wins_witness :
    acmeEntity.urls.lookup "acme.com" =
      some { url := "acme.com", category := some "Advertising" } ∧
    (acmeEntity.addUrl "acme.com" (some "Analytics")).urls.map Prod.fst =
      acmeEntity.urls.map Prod.fst :=
  ⟨by decide,
   (addUrl_last_write_wins acmeEntity "acme.com" (some "Analytics")
      { url := "acme.com", category := some "Advertising" } (by decide)).2.1⟩

/-! ## Monotone accumulation -/

/-- C11: the code drops the url key where the claim promises it is present.  When the
url `__proto__` does not parse, `addRequest` on a fresh bucket completes and creates the
entity `example.net`, but `addUrl` assigns `urls["__proto__"]`, which stores no own
entry: the entity's `urls` is empty. -/
theorem addRequest_proto_url_not_stored (env : Collaborators)
    (h : env.urlHostname "__proto__" = none) :
    urlHostnameOf env protoUrl = "__proto__" ∧
    displayNameOf env protoUrl = "example.net" ∧
    ∃ b1 e1, AggregatedCompanyResponseData.fresh.addRequest env protoUrl = Except.ok b1 ∧
      b1.entities.lookup "example.net" = some e1 ∧ e1.urls = [] := by
  have hu : urlHostnameOf env protoUrl = "__proto__" := by
    simp only [urlHostnameOf, protoUrl, h]
    decide
  have hk : displayNameOf env protoUrl = "example.net" := by
    simp [displayNameOf, protoUrl, strTruthy]
  refine ⟨hu, hk, ?_⟩
  have hadd := addRequest_of_unseen env AggregatedCompanyResponseData.fresh protoUrl rfl
    (by rw [hk]; decide)
  rw [hu, hk] at hadd
  refine ⟨_, (AggregateCompanyData.new env protoUrl.ownerName "example.net"
    (protoUrl.prevalence.getD 0)).addUrl "__proto__" protoUrl.category, hadd, ?_, ?_⟩
  · simp [AggregatedCompanyResponseData.fresh, lookup_cons_self]
  · simp [AggregateCompanyData.addUrl, AggregateCompanyData.new, propSet]

/-- Witness for C11: with the example collaborators the url `__proto__` does not parse. -/
theorem addRequest_proto_url_not_stored_witness :
    exampleCollaborators.urlHostname "__proto__" = none ∧
    urlHostnameOf exampleCollaborators protoUrl = "__proto__" :=
  ⟨by decide, (addRequest_proto_url_not_stored exampleCollaborators (by decide)).1⟩

/-! ## The url key -/

/-- C12, as stated, fails: the url `www.example.net/a.js` has no scheme and does not
parse, and the key under which `addRequest` stores it is `example.net/a.js`, the raw
string with its leading `www.` removed, not the raw string. -/
theorem raw_url_www_removed :
    exampleCollaborators.urlHostname wwwRaw.url = none ∧
    (∀ env : Collaborators, env.urlHostname "www.example.net/a.js" = none →
      urlHostnameOf env wwwRaw = "example.net/a.js") ∧
    (addRequestCalls exampleCollaborators AggregatedCompanyResponseData.fresh
      [wwwRaw]).entities.map (fun p => (p.1, p.2.urls.map Prod.fst)) =
      [("example.net", ["example.net/a.js"])] := by
  refine ⟨by decide, ?_, by decide⟩
  intro env h
  simp only [urlHostnameOf, wwwRaw, h]
  decide

/-- C12, amended: the url key of `addRequest` is the parsed hostname with one leading
`www.` removed when the url parses, and the raw url string with one leading `www.`
removed when it does not (so verbatim exactly when the raw string does not start with
`www.`); a call that completes calls `addUrl` with this key on the entity under the
request's naming-rule key. -/
theorem urlHostname_rule (env : Collaborators) (r : DetectedRequest) :
    (∀ h, env.urlHostname r.url = some h → urlHostnameOf env r = replaceLeadingWww h) ∧
    (env.urlHostname r.url = none → urlHostnameOf env r = replaceLeadingWww r.url) ∧
    (∀ t : String, replaceLeadingWww ("www." ++ t) = t) ∧
    (∀ s : String, (∀ t : String, s ≠ "www." ++ t) → replaceLeadingWww s = s) ∧
    (∀ b b1 : AggregatedCompanyResponseData, b.addRequest env r = Except.ok b1 →
      ∃ e0 : AggregateCompanyData, b1.entities.lookup (displayNameOf env r) =
        some (e0.addUrl (urlHostnameOf env r) r.category)) := by
  refine ⟨?_, ?_, replaceLeadingWww_www_append, replaceLeadingWww_of_not_www,
    fun b b1 h => addRequest_ok_entity env b b1 r h⟩
  · intro h hh
    simp [urlHostnameOf, hh]
  · intro hh
    simp [urlHostnameOf, hh]

/-- Witness for C12: the url of `acmePixel` parses to the hostname `www.acme.com`, and
its url key is `acme.com`. -/
theorem urlHostname_rule_witness :
    exampleCollaborators.urlHostname acmePixel.url = some "www.acme.com" ∧
    urlHostnameOf exampleCollaborators acmePixel = replaceLeadingWww "www.acme.com" ∧
    replaceLeadingWww "www.acme.com" = "acme.com" :=
  ⟨by decide,
   (urlHostname_rule exampleCollaborators acmePixel).1 "www.acme.com" (by decide),
   by decide⟩

/-- C13: the code raises where the claim promises that it never does.  The url
`constructor` does not parse and the request has neither `entityName` nor `eTLDplus1`,
so its key is the raw url `constructor`; `addRequest` on a fresh bucket raises a
`TypeError`, whatever the collaborators are. -/
theorem addRequest_raises_on_raw_url (env : Collaborators) :
    constructorUrl.entityName = none ∧ constructorUrl.eTLDplus1 = none ∧
    exampleCollaborators.urlHostname constructorUrl.url = none ∧
    displayNameOf env constructorUrl = "constructor" ∧
    AggregatedCompanyResponseData.fresh.addRequest env constructorUrl =
      Except.error JsError.typeError := by
  have hk : displayNameOf env constructorUrl = "constructor" := by
    simp [displayNameOf, constructorUrl, strTruthy]
  exact ⟨rfl, rfl, by decide, hk,
    addRequest_of_inherited env _ _ rfl (by rw [hk]; decide)⟩

/-! ## Sorted reads -/

/-- C14, as stated, fails: the entities `Acme` and `360` are inserted in this order with
the same prevalence 5, and `sortedByPrevalence()` returns `360` before `Acme`, because
`Object.values` lists the array-index key `360` first. -/
theorem sortedByPrevalence_tie_not_in_insertion_order :
    (addRequestCalls exampleCollaborators AggregatedCompanyResponseData.fresh
      [acmePixel, entity360]).entities.map (fun p => (p.1, p.2.prevalence)) =
      [("Acme", 5), ("360", 5)] ∧
    (addRequestCalls exampleCollaborators AggregatedCompanyResponseData.fresh
      [acmePixel, entity360]).sortedByPrevalence.map (fun e => e.displayName) =
      ["360", "Acme"] := by
  decide

/-- C14, amended: for every bucket, `sortedByPrevalence()` returns a permutation of the
current entities in non-increasing prevalence; entities of equal prevalence appear in
the order in which `Object.values(entities)` lists them; that order puts the entities
whose key is an array index first, in ascending numeric order of the index, and the
other entities after them in insertion order, so it is insertion order when no key is an
array index; the call leaves the bucket as it was.  Array indices are the canonical
decimal forms of the integers below 4294967295. -/
theorem sortedByPrevalence_spec (b : AggregatedCompanyResponseData) :
    b.sortedByPrevalence.Perm (b.entities.map Prod.snd) ∧
    List.Sorted (fun x y => y.prevalence ≤ x.prevalence) b.sortedByPrevalence ∧
    (∀ v : ℚ, b.sortedByPrevalence.filter (fun e => decide (e.prevalence = v)) =
      (objectValues b.entities).filter (fun e => decide (e.prevalence = v))) ∧
    (∃ idx rest : List (String × AggregateCompanyData),
      objectValues b.entities = (idx ++ rest).map Prod.snd ∧
      idx.Perm (b.entities.filter (fun p => (arrayIndex? p.1).isSome)) ∧
      List.Pairwise (fun p q => ∀ i j, arrayIndex? p.1 = some i → arrayIndex? q.1 = some j →
        i ≤ j) idx ∧
      rest = b.entities.filter (fun p => (arrayIndex? p.1).isNone)) ∧
    ((∀ p ∈ b.entities, arrayIndex? p.1 = none) →
      objectValues b.entities = b.entities.map Prod.snd) ∧
    (arrayIndex? "360" = some 360 ∧ arrayIndex? "42" = some 42 ∧ arrayIndex? "0" = some 0 ∧
      arrayIndex? "4294967294" = some 4294967294 ∧ arrayIndex? "4294967295" = none ∧
      arrayIndex? "007" = none ∧ arrayIndex? "-1" = none ∧ arrayIndex? "1.5" = none ∧
      arrayIndex? "Acme" = none ∧ arrayIndex? "" = none) ∧
    (∀ (k : String) (n : Nat),
      arrayIndex? k = some n ↔ n < 4294967295 ∧ k = toString n) ∧
    b.sortedByPrevalenceStep.2 = b := by
  obtain ⟨hperm, hsorted, hstable⟩ := sortByPrevalence_spec (objectValues b.entities)
  exact ⟨hperm.trans (objectValues_perm b.entities), hsorted, hstable,
    objectValues_order b.entities, objectValues_of_no_index b.entities, by decide,
    arrayIndex?_eq_some_iff, rfl⟩

/-- Witness for C14: the entities `tracker.example` (prevalence 3), `Acme`, `360` and
`42` (prevalence 5 each) are inserted in this order; `Object.values` lists `42`, `360`,
`tracker.example`, `Acme`, and the sorted list keeps the three entities of prevalence 5
in that order, before `tracker.example`. -/
theorem sortedByPrevalence_spec_witness :
    (addRequestCalls exampleCollaborators AggregatedCompanyResponseData.fresh
      [blockedTracker, acmePixel, entity360, entity42]).entities.map
      (fun p => (p.1, p.2.prevalence)) =
      [("tracker.example", 3), ("Acme", 5), ("360", 5), ("42", 5)] ∧
    (objectValues (addRequestCalls exampleCollaborators AggregatedCompanyResponseData.fresh
      [blockedTracker, acmePixel, entity360, entity42]).entities).map
      (fun e => e.displayName) = ["42", "360", "tracker.example", "Acme"] ∧
    (addRequestCalls exampleCollaborators AggregatedCompanyResponseData.fresh
      [blockedTracker, acmePixel, entity360, entity42]).sortedByPrevalence.map
      (fun e => e.displayName) = ["42", "360", "Acme", "tracker.example"] ∧
    (addRequestCalls exampleCollaborators AggregatedCompanyResponseData.fresh
      [blockedTracker, acmePixel, entity360, entity42]).sortedByPrevalence.filter
      (fun e => decide (e.prevalence = 5)) =
      (objectValues (addRequestCalls exampleCollaborators AggregatedCompanyResponseData.fresh
        [blockedTracker, acmePixel, entity360, entity42]).entities).filter
        (fun e => decide (e.prevalence = 5)) :=
  ⟨by decide, by decide, by decide,
   (sortedByPrevalence_spec (addRequestCalls exampleCollaborators
      AggregatedCompanyResponseData.fresh
      [blockedTracker, acmePixel, entity360, entity42])).2.2.1 5⟩

/-- C15, as stated, fails: the blocked entities `Acme` and `360` are inserted in this
order with the same prevalence and neither is named `unknown`, and
`blockedCompanyNames()` returns `360` before `Acme`. -/
theorem blockedCompanyNames_tie_not_in_insertion_order :
    (routeCall exampleCollaborators
      (routeCall exampleCollaborators (RequestDetails.new []) acmePixel)
      entity360).blocked.entities.map (fun p => (p.1, p.2.name, p.2.prevalence)) =
      [("Acme", some "Acme Corporation", 5), ("360", some "360 Group", 5)] ∧
    createRequestDetails exampleCollaborators [acmePixel, entity360] [] =
      Except.ok (routeCall exampleCollaborators
        (routeCall exampleCollaborators (RequestDetails.new []) acmePixel) entity360) ∧
    (routeCall exampleCollaborators
      (routeCall exampleCollaborators (RequestDetails.new []) acmePixel)
      entity360).blockedCompanyNames = ["360", "Acme"] := by
  refine ⟨by decide, by rfl, by decide⟩

/-- C15, amended: for every `RequestDetails`, `blockedCompanyNames()` is the list of
`displayName` values of a list of entities that is a permutation of the entities of
`blocked` whose `name` is not the string `unknown`, is in non-increasing prevalence, and
keeps entities of equal prevalence in the order in which `Object.values` lists them;
that order puts the entities whose key is an array index first, in ascending numeric
order of the index, and the other entities after them in insertion order, so it is
insertion order when no key of `blocked.entities` is an array index. -/
theorem blockedCompanyNames_spec (r : RequestDetails) :
    ∃ l : List AggregateCompanyData,
      r.blockedCompanyNames = l.map (fun e => e.displayName) ∧
      l.Perm ((r.blocked.entities.map Prod.snd).filter
        (fun e => decide (e.name ≠ some "unknown"))) ∧
      List.Sorted (fun x y => y.prevalence ≤ x.prevalence) l ∧
      (∀ v : ℚ, l.filter (fun e => decide (e.prevalence = v)) =
        ((objectValues r.blocked.entities).filter
          (fun e => decide (e.name ≠ some "unknown"))).filter
          (fun e => decide (e.prevalence = v))) ∧
      (∃ idx rest : List (String × AggregateCompanyData),
        objectValues r.blocked.entities = (idx ++ rest).map Prod.snd ∧
        idx.Perm (r.blocked.entities.filter (fun p => (arrayIndex? p.1).isSome)) ∧
        List.Pairwise (fun p q => ∀ i j, arrayIndex? p.1 = some i →
          arrayIndex? q.1 = some j → i ≤ j) idx ∧
        rest = r.blocked.entities.filter (fun p => (arrayIndex? p.1).isNone)) ∧
      ((∀ p ∈ r.blocked.entities, arrayIndex? p.1 = none) →
        objectValues r.blocked.entities = r.blocked.entities.map Prod.snd) ∧
      (arrayIndex? "360" = some 360 ∧ arrayIndex? "42" = some 42 ∧
        arrayIndex? "4294967294" = some 4294967294 ∧ arrayIndex? "4294967295" = none ∧
        arrayIndex? "042" = none ∧ arrayIndex? "example.net" = none) ∧
      (∀ (k : String) (n : Nat),
        arrayIndex? k = some n ↔ n < 4294967295 ∧ k = toString n) := by
  obtain ⟨hperm, hsorted, hstable⟩ := sortByPrevalence_spec
    ((objectValues r.blocked.entities).filter (fun e => decide (e.name ≠ some "unknown")))
  exact ⟨_, rfl, hperm.trans ((objectValues_perm r.blocked.entities).filter _), hsorted,
    hstable, objectValues_order r.blocked.entities,
    objectValues_of_no_index r.blocked.entities, by decide, arrayIndex?_eq_some_iff⟩

/-- Witness for C15: the blocked entities `tracker.example` (named `unknown`), `Acme`,
`360` (prevalence 5 each), `example.net` (prevalence 9) and `42` (prevalence 5) are
inserted in this order; `Object.values` lists `42`, `360`, `tracker.example`, `Acme`,
`example.net`; the names come out as `example.net`, then the three entities of
prevalence 5 in that order, without `tracker.example`. -/
theorem blockedCompanyNames_spec_witness :
    createRequestDetails exampleCollaborators
      [unknownOwner, acmePixel, entity360, blockedCdn, entity42] [] =
      Except.ok (routeCall exampleCollaborators (routeCall exampleCollaborators
        (routeCall exampleCollaborators (routeCall exampleCollaborators
          (routeCall exampleCollaborators (RequestDetails.new []) unknownOwner) acmePixel)
          entity360) blockedCdn) entity42) ∧
    (routeCall exampleCollaborators (routeCall exampleCollaborators
      (routeCall exampleCollaborators (routeCall exampleCollaborators
        (routeCall exampleCollaborators (RequestDetails.new []) unknownOwner) acmePixel)
        entity360) blockedCdn) entity42).blocked.entities.map
      (fun p => (p.1, p.2.name, p.2.prevalence)) =
      [("tracker.example", some "unknown", 0), ("Acme", some "Acme Corporation", 5),
       ("360", some "360 Group", 5), ("example.net", some "Example Net", 9),
       ("42", some "42 Labs", 5)] ∧
    (objectValues (routeCall exampleCollaborators (routeCall exampleCollaborators
      (routeCall exampleCollaborators (routeCall exampleCollaborators
        (routeCall exampleCollaborators (RequestDetails.new []) unknownOwner) acmePixel)
        entity360) blockedCdn) entity42).blocked.entities).map (fun e => e.displayName) =
      ["42", "360", "tracker.example", "Acme", "example.net"] ∧
    (routeCall exampleCollaborators (routeCall exampleCollaborators
      (routeCall exampleCollaborators (routeCall exampleCollaborators
        (routeCall exampleCollaborators (RequestDetails.new []) unknownOwner) acmePixel)
        entity360) blockedCdn) entity42).blockedCompanyNames =
      ["example.net", "42", "360", "Acme"] ∧
    (∃ l : List AggregateCompanyData,
      (routeCall exampleCollaborators (routeCall exampleCollaborators
        (routeCall exampleCollaborators (routeCall exampleCollaborators
          (routeCall exampleCollaborators (RequestDetails.new []) unknownOwner) acmePixel)
          entity360) blockedCdn) entity42).blockedCompanyNames =
        l.map (fun e => e.displayName) ∧
      List.Sorted (fun x y => y.prevalence ≤ x.prevalence) l) :=
  ⟨by rfl, by decide, by decide, by decide,
   (blockedCompanyNames_spec (routeCall exampleCollaborators (routeCall exampleCollaborators
      (routeCall exampleCollaborators (routeCall exampleCollaborators
        (routeCall exampleCollaborators (RequestDetails.new []) unknownOwner) acmePixel)
        entity360) blockedCdn) entity42)).imp
     (fun _ h => ⟨h.1, h.2.2.1⟩)⟩

/-! ## The count methods -/

/-- C16: for every `RequestDetails`, `allowedSpecialCount()` is the sum of
`entitiesCount` over the allowed-reason buckets other than `otherThirdPartyRequest`,
which are `adClickAttribution`, `ownedByFirstParty`, `ruleException` and
`protectionDisabled`; and `allowedNonSpecialCount()` is
`otherThirdPartyRequest.entitiesCount`. -/
theorem allowedCounts_spec (r : RequestDetails) :
    r.allowedSpecialCount = specialCountSum r ∧
    r.allowedSpecialCount =
      r.allowed.adClickAttribution.entitiesCount + r.allowed.ownedByFirstParty.entitiesCount +
      r.allowed.ruleException.entitiesCount + r.allowed.protectionDisabled.entitiesCount ∧
    allowedKeys.filter (fun k => decide (k ≠ "otherThirdPartyRequest")) =
      ["adClickAttribution", "ownedByFirstParty", "ruleException", "protectionDisabled"] ∧
    (r.allowed.get? "otherThirdPartyRequest").map (fun b => b.entitiesCount) =
      some r.allowedNonSpecialCount ∧
    r.allowedNonSpecialCount = r.allowed.otherThirdPartyRequest.entitiesCount := by
  refine ⟨?_, rfl, by decide, ?_, rfl⟩
  · simp [specialCountSum, allowedKeys, AllowedBuckets.get?,
      RequestDetails.allowedSpecialCount, List.filterMap_cons, Nat.add_assoc]
  · simp [AllowedBuckets.get?, RequestDetails.allowedNonSpecialCount]

/-- C17: the code counts an entity twice where its docstring and the claim count it
once.  The two requests are allowed with the special reasons `ruleException` and
`ownedByFirstParty` and have the one naming-rule key `tracker.example`;
`createRequestDetails` returns a result whose `allowedSpecialCount()` is 2, whatever the
collaborators are. -/
theorem allowedSpecialCount_counts_entity_twice (env : Collaborators)
    (surrogates : List String) :
    (([ruleExceptionRequest, firstPartyRequest].filter hasSpecialReason).map
      (displayNameOf env)).toFinset.card = 1 ∧
    [ruleExceptionRequest, firstPartyRequest].filter hasSpecialReason =
      [ruleExceptionRequest, firstPartyRequest] ∧
    ∃ out, createRequestDetails env [ruleExceptionRequest, firstPartyRequest] surrogates =
        Except.ok out ∧
      out.allowedSpecialCount = 2 := by
  have hk1 : displayNameOf env ruleExceptionRequest = "tracker.example" := by
    simp [displayNameOf, ruleExceptionRequest, strTruthy]
  have hk2 : displayNameOf env firstPartyRequest = "tracker.example" := by
    simp [displayNameOf, firstPartyRequest, strTruthy]
  have hr1 : Routable env ruleExceptionRequest := by
    refine ⟨by rw [hk1]; decide, ?_⟩
    intro a ha
    have : a = ⟨"ruleException"⟩ := by
      simpa [ruleExceptionRequest] using ha.symm
    subst this
    decide
  have hr2 : Routable env firstPartyRequest := by
    refine ⟨by rw [hk2]; decide, ?_⟩
    intro a ha
    have : a = ⟨"ownedByFirstParty"⟩ := by
      simpa [firstPartyRequest] using ha.symm
    subst this
    decide
  have hfilter : [ruleExceptionRequest, firstPartyRequest].filter hasSpecialReason =
      [ruleExceptionRequest, firstPartyRequest] := by decide
  refine ⟨by rw [hfilter]; simp [hk1, hk2], hfilter, ?_⟩
  refine ⟨routeCall env (routeCall env (RequestDetails.new surrogates) ruleExceptionRequest)
    firstPartyRequest, ?_, ?_⟩
  · simp only [createRequestDetails, routeAll, routeRequest_of_routable env _ _ hr1,
      routeRequest_of_routable env _ _ hr2]
  · have e1 : (routeCall env (routeCall env (RequestDetails.new surrogates)
        ruleExceptionRequest) firstPartyRequest).allowed.adClickAttribution =
        AggregatedCompanyResponseData.fresh := rfl
    have e2 : (routeCall env (routeCall env (RequestDetails.new surrogates)
        ruleExceptionRequest) firstPartyRequest).allowed.ownedByFirstParty =
        addRequestCall env AggregatedCompanyResponseData.fresh firstPartyRequest := rfl
    have e3 : (routeCall env (routeCall env (RequestDetails.new surrogates)
        ruleExceptionRequest) firstPartyRequest).allowed.ruleException =
        addRequestCall env AggregatedCompanyResponseData.fresh ruleExceptionRequest := rfl
    have e4 : (routeCall env (routeCall env (RequestDetails.new surrogates)
        ruleExceptionRequest) firstPartyRequest).allowed.protectionDisabled =
        AggregatedCompanyResponseData.fresh := rfl
    rw [RequestDetails.allowedSpecialCount, e1, e2, e3, e4,
      addRequestCall_fresh env _ hr1.1, addRequestCall_fresh env _ hr2.1]
    rfl

/-- C18, as stated, fails: a list with the single blocked request `unknownOwner`, whose
owner name is `unknown` and whose naming-rule key is `tracker.example`, gives
`blockedCount() == 1` and an empty `blockedCompanyNames()`, whatever the collaborators
are. -/
theorem blockedCompanyNames_skips_unknown_owner :
    (∀ env : Collaborators, displayNameOf env unknownOwner = "tracker.example") ∧
    (∀ (env : Collaborators) (s : List String), ∃ out,
      createRequestDetails env [unknownOwner] s = Except.ok out ∧
      out.blockedCount = 1 ∧ out.blockedCompanyNames = []) := by
  have hk : ∀ env : Collaborators, displayNameOf env unknownOwner = "tracker.example" :=
    fun env => by simp [displayNameOf, unknownOwner, strTruthy]
  refine ⟨hk, ?_⟩
  intro env s
  have hr : ∀ r ∈ [unknownOwner], Routable env r := by
    intro r hr
    rw [List.mem_singleton.1 hr]
    exact ⟨by rw [hk env]; decide, fun a ha => by simp [unknownOwner] at ha⟩
  obtain ⟨out, hout⟩ := (createRequestDetails_ok_iff env [unknownOwner] s).2 hr
  obtain ⟨hb, _, hnames⟩ := createRequestDetails_single_blocked env [unknownOwner] s out
    unknownOwner hout (by decide) (by
      intro r hr
      rw [List.mem_singleton.1 hr]
      rfl)
  refine ⟨out, hout, hb, ?_⟩
  rw [hnames]
  rfl

/-- C18, amended: in a result of `createRequestDetails`, `blockedCount()` is
`blocked.entitiesCount`, which is the number of distinct naming-rule keys of the
requests with a `blocked` member; when exactly one request has a `blocked` member and
none has an `allowed` member, `blockedCount()` is 1, `state(true)` is
`protectionsOn_blocked`, and `blockedCompanyNames()` is the one-element list holding
that request's naming-rule key, or the empty list when the request's `ownerName` is the
string `unknown`. -/
theorem blockedCount_spec (env : Collaborators) (requests : List DetectedRequest)
    (s : List String) (out : RequestDetails)
    (h : createRequestDetails env requests s = Except.ok out) :
    out.blockedCount = out.blocked.entitiesCount ∧
    out.blocked.entitiesCount =
      (((requests.filter (fun r => r.state.blocked)).map (displayNameOf env)).toFinset).card ∧
    (∀ f, requests.filter (fun r => r.state.blocked) = [f] →
      (∀ r ∈ requests, r.state.allowed = none) →
      out.blockedCount = 1 ∧ out.state true = "protectionsOn_blocked" ∧
      (f.ownerName ≠ some "unknown" → out.blockedCompanyNames = [displayNameOf env f]) ∧
      (f.ownerName = some "unknown" → out.blockedCompanyNames = [])) := by
  refine ⟨rfl, createRequestDetails_blocked_entitiesCount env requests s out h, ?_⟩
  intro f hf hna
  obtain ⟨hb, hst, hnames⟩ := createRequestDetails_single_blocked env requests s out f h hf hna
  refine ⟨hb, hst, ?_, ?_⟩
  · intro hu
    rw [hnames, if_neg hu]
  · intro hu
    rw [hnames, if_pos hu]

/-- Witness for C18: the one-request list holding `acmePixel`, with the entity name
`Acme.com`, gives the blocked company names `Acme`. -/
theorem blockedCount_spec_witness :
    createRequestDetails exampleCollaborators [acmePixel] [] =
      Except.ok (routeCall exampleCollaborators (RequestDetails.new []) acmePixel) ∧
    (routeCall exampleCollaborators (RequestDetails.new []) acmePixel).blockedCount = 1 ∧
    (routeCall exampleCollaborators (RequestDetails.new []) acmePixel).state true =
      "protectionsOn_blocked" ∧
    (routeCall exampleCollaborators (RequestDetails.new []) acmePixel).blockedCompanyNames =
      ["Acme"] :=
  ⟨by rfl,
   ((blockedCount_spec exampleCollaborators [acmePixel] []
      (routeCall exampleCollaborators (RequestDetails.new []) acmePixel) (by rfl)).2.2
      acmePixel (by decide) (by decide)).1,
   by decide, by decide⟩

/-- C19: the code raises where the claim promises the subset relation.  Both requests
have a `blocked` member; the key `constructor` of the second is never a key of
`all.entities`, because `createRequestDetails` raises a `TypeError` on it, whatever the
collaborators are. -/
theorem createRequestDetails_raises_on_blocked_request (env : Collaborators)
    (surrogates : List String) :
    blockedTracker.state.blocked = true ∧ constructorHost.state.blocked = true ∧
    displayNameOf env constructorHost = "constructor" ∧
    createRequestDetails env [blockedTracker, constructorHost] surrogates =
      Except.error JsError.typeError := by
  have hk1 : displayNameOf env blockedTracker = "tracker.example" := by
    simp [displayNameOf, blockedTracker, strTruthy]
  have hk2 : displayNameOf env constructorHost = "constructor" := by
    simp [displayNameOf, constructorHost, strTruthy]
  refine ⟨rfl, rfl, hk2, ?_⟩
  have hr1 : Routable env blockedTracker :=
    ⟨by rw [hk1]; decide, fun a ha => by simp [blockedTracker] at ha⟩
  have hreached : Reached env [blockedTracker]
      (addRequestCall env AggregatedCompanyResponseData.fresh blockedTracker) :=
    reached_calls env [blockedTracker]
  have herr := addRequest_error_of_reached env [blockedTracker] _ constructorHost hreached
    (by rw [hk2]; decide)
  have hall : (routeCall env (RequestDetails.new surrogates) blockedTracker).all =
      addRequestCall env AggregatedCompanyResponseData.fresh blockedTracker := rfl
  have hstep : routeRequest env (routeCall env (RequestDetails.new surrogates) blockedTracker)
      constructorHost = Except.error JsError.typeError := by
    unfold routeRequest
    rw [hall, herr]
  simp only [createRequestDetails, routeAll, routeRequest_of_routable env _ _ hr1, hstep]

/-! ## Purity of the state derivation -/

/-- C20: two `RequestDetails` with equal `blockedCount()`, `allowedSpecialCount()` and
`allowedNonSpecialCount()` have the same `state` for the same `protectionsEnabled`,
whatever entities, urls and surrogates they hold; a call of `state` or of `matches`
leaves the object, with every bucket, as it was, and a second call of `state` returns
the same value. -/
theorem state_depends_on_counts_only (r1 r2 : RequestDetails) (p : Bool)
    (hb : r1.blockedCount = r2.blockedCount)
    (hs : r1.allowedSpecialCount = r2.allowedSpecialCount)
    (hn : r1.allowedNonSpecialCount = r2.allowedNonSpecialCount) :
    r1.state p = r2.state p ∧
    (r1.stateStep p).2 = r1 ∧
    ((r1.stateStep p).2.stateStep p).1 = (r1.stateStep p).1 ∧
    (∀ c : List String, (r1.matchesStep p c).2 = r1 ∧
      ((r1.matchesStep p c).2.stateStep p).1 = (r1.stateStep p).1) := by
  refine ⟨?_, rfl, rfl, fun c => ⟨rfl, rfl⟩⟩
  simp only [RequestDetails.state, hb, hs, hn]

/-- Witness for C20: the results for `acmePixel` and for `blockedTracker` hold different
entities, urls and surrogates and have the same three counts. -/
theorem state_depends_on_counts_only_witness :
    (routeCall exampleCollaborators (RequestDetails.new []) acmePixel).blockedCount =
      (routeCall exampleCollaborators (RequestDetails.new ["cdn.example.net"])
        blockedTracker).blockedCount ∧
    (routeCall exampleCollaborators (RequestDetails.new []) acmePixel) ≠
      (routeCall exampleCollaborators (RequestDetails.new ["cdn.example.net"])
        blockedTracker) ∧
    (routeCall exampleCollaborators (RequestDetails.new []) acmePixel).state true =
      (routeCall exampleCollaborators (RequestDetails.new ["cdn.example.net"])
        blockedTracker).state true :=
  ⟨by decide, by decide,
   (state_depends_on_counts_only
      (routeCall exampleCollaborators (RequestDetails.new []) acmePixel)
      (routeCall exampleCollaborators (RequestDetails.new ["cdn.example.net"]) blockedTracker)
      true (by decide) (by decide) (by decide)).1⟩

/-! ## Membership test -/

/-- C21: for every `RequestDetails`, every `protectionsEnabled` and every list of state
identifiers, `matches` is true exactly when the derived state is an element of the
list; it is false for the empty list and true for the list of all twelve states. -/
theorem matches_iff_state_mem (r : RequestDetails) (p : Bool) :
    (∀ c : List String, r.matches p c = true ↔ r.state p ∈ c) ∧
    r.matches p [] = false ∧
    r.matches p statesValues = true := by
  have h : ∀ c : List String, r.matches p c = true ↔ r.state p ∈ c := by
    intro c
    simp [RequestDetails.matches]
  refine ⟨h, by simp [RequestDetails.matches], ?_⟩
  rw [h]
  unfold RequestDetails.state
  simp only [statesValues]
  split_ifs <;> simp

/-! ## Scenario C -/

/-- C22: the code raises where the claim promises a state.  The list holds a blocked
request, a request allowed with reason `otherThirdPartyRequest` and no request allowed
with a special reason; the blocked request is keyed by `constructor`, and
`createRequestDetails` raises a `TypeError` on it, whatever the collaborators are, so
there is no state. -/
theorem createRequestDetails_raises_in_scenario (env : Collaborators)
    (surrogates : List String) :
    constructorHost.state.blocked = true ∧
    hasReason "otherThirdPartyRequest" exampleNet = true ∧
    (∀ r ∈ [constructorHost, exampleNet], hasSpecialReason r = false) ∧
    createRequestDetails env [constructorHost, exampleNet] surrogates =
      Except.error JsError.typeError := by
  refine ⟨rfl, by decide, by decide, ?_⟩
  have hk : displayNameOf env constructorHost = "constructor" := by
    simp [displayNameOf, constructorHost, strTruthy]
  have hall : AggregatedCompanyResponseData.fresh.addRequest env constructorHost =
      Except.error JsError.typeError :=
    addRequest_of_inherited env _ _ rfl (by rw [hk]; decide)
  simp [createRequestDetails, routeAll, routeRequest, RequestDetails.new, hall]

/-! ## Ingestion -/

/-- C23: `fromJson` validates before it builds.  When `requestDataSchema.parse` throws,
`fromJson` fails with that `ZodError` and returns no `RequestDetails`; a result is
returned only for a payload that parses; and for a payload that parses, `fromJson`
returns the very `RequestDetails` that `createRequestDetails` returns for the parsed
requests and the parsed `installedSurrogates`, or the empty list when that member is
absent, and raises what `createRequestDetails` raises; it does return a result whenever
no request has an inherited name as key or reason.  The payload of Scenario E, without
`requests`, fails. -/
theorem fromJson_validates_first {Payload : Type} (parse : Payload → Option RequestData)
    (env : Collaborators) :
    (∀ json, parse json = none →
      fromJson parse env json = Except.error IngestError.zodError) ∧
    (∀ json out, fromJson parse env json = Except.ok out → ∃ data, parse json = some data) ∧
    (∀ json requests surrogates,
      parse json = some { requests := requests, installedSurrogates := some surrogates } →
      fromJson parse env json = passOn (createRequestDetails env requests surrogates)) ∧
    (∀ json requests,
      parse json = some { requests := requests, installedSurrogates := none } →
      fromJson parse env json = passOn (createRequestDetails env requests [])) ∧
    (∀ json requests surrogates out,
      parse json = some { requests := requests, installedSurrogates := some surrogates } →
      createRequestDetails env requests surrogates = Except.ok out →
      fromJson parse env json = Except.ok out) ∧
    (∀ json requests out,
      parse json = some { requests := requests, installedSurrogates := none } →
      createRequestDetails env requests [] = Except.ok out →
      fromJson parse env json = Except.ok out) ∧
    (∀ json data e, parse json = some data →
      createRequestDetails env data.requests (data.installedSurrogates.getD []) =
        Except.error e →
      fromJson parse env json = Except.error (IngestError.raised e)) ∧
    (∀ json data, parse json = some data → (∀ r ∈ data.requests, Routable env r) →
      ∃ out, fromJson parse env json = Except.ok out ∧
        createRequestDetails env data.requests (data.installedSurrogates.getD []) =
          Except.ok out ∧
        out.surrogates = data.installedSurrogates.getD [] ∧
        out.all.requestCount = data.requests.length) ∧
    wireParse payloadWithoutRequests = none ∧
    fromJson wireParse env payloadWithoutRequests = Except.error IngestError.zodError := by
  refine ⟨?_, ?_, ?_, ?_, ?_, ?_, ?_, ?_, rfl, rfl⟩
  · intro json h
    simp [fromJson, h]
  · intro json out h
    cases hp : parse json with
    | none => simp [fromJson, hp] at h
    | some data => exact ⟨data, rfl⟩
  · intro json requests surrogates h
    simp [fromJson, h]
  · intro json requests h
    simp [fromJson, h]
  · intro json requests surrogates out h hout
    simp [fromJson, h, hout, passOn]
  · intro json requests out h hout
    simp [fromJson, h, hout, passOn]
  · intro json data e h herr
    simp [fromJson, h, herr, passOn]
  · intro json data h hr
    obtain ⟨out, hout⟩ := (createRequestDetails_ok_iff env data.requests
      (data.installedSurrogates.getD [])).2 hr
    have hR := createRequestDetails_routed env _ _ out hout
    refine ⟨out, by simp [fromJson, h, hout, passOn], hout, hR.surrogates, ?_⟩
    exact (createRequestDetails_all_entitiesCount env _ _ out hout).2

/-- Witness for C23: the payload `payloadTracker` parses, and `fromJson` returns the
`RequestDetails` that holds its two requests and its surrogate list; its state with
protections enabled is that of Scenario C. -/
theorem fromJson_validates_first_witness :
    wireParse payloadTracker =
      some { requests := [blockedTracker, exampleNet],
             installedSurrogates := some ["cdn.example.net"] } ∧
    createRequestDetails exampleCollaborators [blockedTracker, exampleNet]
      ["cdn.example.net"] =
      Except.ok (routeCall exampleCollaborators (routeCall exampleCollaborators
        (RequestDetails.new ["cdn.example.net"]) blockedTracker) exampleNet) ∧
    fromJson wireParse exampleCollaborators payloadTracker =
      Except.ok (routeCall exampleCollaborators (routeCall exampleCollaborators
        (RequestDetails.new ["cdn.example.net"]) blockedTracker) exampleNet) ∧
    (routeCall exampleCollaborators (routeCall exampleCollaborators
      (RequestDetails.new ["cdn.example.net"]) blockedTracker) exampleNet).surrogates =
      ["cdn.example.net"] ∧
    (routeCall exampleCollaborators (routeCall exampleCollaborators
      (RequestDetails.new ["cdn.example.net"]) blockedTracker) exampleNet).all.requestCount
      = 2 ∧
    (routeCall exampleCollaborators (routeCall exampleCollaborators
      (RequestDetails.new ["cdn.example.net"]) blockedTracker) exampleNet).state true =
      "protectionsOn_blocked_allowedNonTrackers" :=
  ⟨rfl, by rfl,
   (fromJson_validates_first wireParse exampleCollaborators).2.2.2.2.1 payloadTracker
    [blockedTracker, exampleNet] ["cdn.example.net"] _ rfl (by rfl),
   by decide, by decide, by decide⟩

/-- C24: for inputs that all parse, `fromMultiJson` returns the very `RequestDetails`
that `createRequestDetails` returns for the concatenation, in input order, of the parsed
requests and the concatenation, in input order, of the parsed installed surrogates, and
raises what it raises; it does return a result whenever no request has an inherited name
as key or reason; for a single input it is `fromJson`; and when some input does not
parse it fails with the `ZodError` and returns nothing. -/
theorem fromMultiJson_concatenates {Payload : Type} (parse : Payload → Option RequestData)
    (env : Collaborators) (inputs : List Payload) (datas : List RequestData)
    (h : inputs.map parse = datas.map some) :
    fromMultiJson parse env inputs =
      passOn (createRequestDetails env (concatRequests datas) (concatSurrogates datas)) ∧
    (∀ json, fromMultiJson parse env [json] = fromJson parse env json) ∧
    (∀ others : List Payload, (∃ j ∈ others, parse j = none) →
      fromMultiJson parse env others = Except.error IngestError.zodError) ∧
    (∀ out, createRequestDetails env (concatRequests datas) (concatSurrogates datas) =
        Except.ok out →
      fromMultiJson parse env inputs = Except.ok out) ∧
    (∀ e, createRequestDetails env (concatRequests datas) (concatSurrogates datas) =
        Except.error e →
      fromMultiJson parse env inputs = Except.error (IngestError.raised e)) ∧
    ((∀ r ∈ concatRequests datas, Routable env r) →
      ∃ out, fromMultiJson parse env inputs = Except.ok out ∧
        createRequestDetails env (concatRequests datas) (concatSurrogates datas) =
          Except.ok out ∧
        out.surrogates = concatSurrogates datas ∧
        out.all.requestCount = (concatRequests datas).length) ∧
    (∀ others : List Payload, ∀ out, fromMultiJson parse env others = Except.ok out →
      ∀ j ∈ others, ∃ data, parse j = some data) := by
  have hmain : fromMultiJson parse env inputs =
      passOn (createRequestDetails env (concatRequests datas) (concatSurrogates datas)) := by
    simp [fromMultiJson, fromMultiJsonLoop_of_valid parse inputs datas [] [] h]
  refine ⟨hmain, ?_, ?_, ?_, ?_, ?_, ?_⟩
  · intro json
    cases hp : parse json with
    | none => simp [fromMultiJson, fromMultiJsonLoop, fromJson, hp]
    | some data => simp [fromMultiJson, fromMultiJsonLoop, fromJson, hp]
  · intro others hj
    simp [fromMultiJson, fromMultiJsonLoop_of_invalid parse others [] [] hj]
  · intro out hout
    rw [hmain, hout]
    rfl
  · intro e herr
    rw [hmain, herr]
    rfl
  · intro hr
    obtain ⟨out, hout⟩ := (createRequestDetails_ok_iff env (concatRequests datas)
      (concatSurrogates datas)).2 hr
    have hR := createRequestDetails_routed env _ _ out hout
    refine ⟨out, by rw [hmain, hout]; rfl, hout, hR.surrogates, ?_⟩
    exact (createRequestDetails_all_entitiesCount env _ _ out hout).2
  · intro others out hout j hj
    cases hp : parse j with
    | some data => exact ⟨data, rfl⟩
    | none =>
      rw [fromMultiJson, fromMultiJsonLoop_of_invalid parse others [] [] ⟨j, hj, hp⟩] at hout
      cases hout

/-- Witness for C24: two payloads that parse, the first without `installedSurrogates`;
`fromMultiJson` returns the `RequestDetails` that holds the four requests in input order
and the one surrogate. -/
theorem fromMultiJson_concatenates_witness :
    [payloadAcme, payloadTracker].map wireParse =
      [({ requests := [acmePixel, acmeLib], installedSurrogates := none } : RequestData),
       { requests := [blockedTracker, exampleNet],
         installedSurrogates := some ["cdn.example.net"] }].map some ∧
    concatRequests
      [{ requests := [acmePixel, acmeLib], installedSurrogates := none },
       { requests := [blockedTracker, exampleNet],
         installedSurrogates := some ["cdn.example.net"] }] =
      [acmePixel, acmeLib, blockedTracker, exampleNet] ∧
    concatSurrogates
      [{ requests := [acmePixel, acmeLib], installedSurrogates := none },
       { requests := [blockedTracker, exampleNet],
         installedSurrogates := some ["cdn.example.net"] }] = ["cdn.example.net"] ∧
    fromMultiJson wireParse exampleCollaborators [payloadAcme, payloadTracker] =
      Except.ok (routeCall exampleCollaborators (routeCall exampleCollaborators
        (routeCall exampleCollaborators (routeCall exampleCollaborators
          (RequestDetails.new ["cdn.example.net"]) acmePixel) acmeLib) blockedTracker)
        exampleNet) ∧
    (routeCall exampleCollaborators (routeCall exampleCollaborators
      (routeCall exampleCollaborators (routeCall exampleCollaborators
        (RequestDetails.new ["cdn.example.net"]) acmePixel) acmeLib) blockedTracker)
      exampleNet).all.entities.map Prod.fst = ["Acme", "tracker.example", "example.net"] ∧
    (routeCall exampleCollaborators (routeCall exampleCollaborators
      (routeCall exampleCollaborators (routeCall exampleCollaborators
        (RequestDetails.new ["cdn.example.net"]) acmePixel) acmeLib) blockedTracker)
      exampleNet).all.requestCount = 4 :=
  ⟨rfl, rfl, rfl,
   (fromMultiJson_concatenates wireParse exampleCollaborators [payloadAcme, payloadTracker]
      [{ requests := [acmePixel, acmeLib], installedSurrogates := none },
       { requests := [blockedTracker, exampleNet],
         installedSurrogates := some ["cdn.example.net"] }] rfl).2.2.2.1 _ (by rfl),
   by decide, by decide⟩

/-! ## Identity keys -/

/-- C25: after any sequence of `addRequest` calls on a fresh bucket, an entity stored
under key `k` has `displayName` equal to `k` and `normalizedName` equal to
`normalizeCompanyName(k)`, and a `TrackerUrl` stored in its `urls` under key `u` has
`url` equal to `u`; the key of a request does not depend on its `ownerName`, which
becomes the entity's `name`. -/
theorem identity_key_invariant (env : Collaborators) (requests : List DetectedRequest)
    (k : String) (e : AggregateCompanyData)
    (h : (addRequestCalls env AggregatedCompanyResponseData.fresh requests).entities.lookup k
      = some e) :
    e.displayName = k ∧
    e.normalizedName = env.normalizeCompanyName k ∧
    (∀ u t, e.urls.lookup u = some t → t.url = u) ∧
    (∀ (r : DetectedRequest) (owner : Option String),
      displayNameOf env { r with ownerName := owner } = displayNameOf env r) ∧
    (∃ first, firstWithKey env requests k = some first ∧ e.name = first.ownerName) := by
  obtain ⟨_, first, hf, hn, _, hd, hm⟩ := (reached_calls env requests).entry k e h
  exact ⟨hd, hm, urlsKeyed_calls env requests k e h, fun r owner => rfl, first, hf, hn⟩

/-- Witness for C25: after the two requests of the entity `Acme`, the entity under the
key `Acme` has the display name `Acme`. -/
theorem identity_key_invariant_witness :
    (addRequestCalls exampleCollaborators AggregatedCompanyResponseData.fresh
      [acmePixel, acmeLib]).entities.lookup "Acme" =
      some { name := some "Acme Corporation", displayName := "Acme", prevalence := 5,
             normalizedName := "acme",
             urls := [("acme.com", { url := "acme.com", category := some "Advertising" }),
                      ("cdn.acme.com",
                        { url := "cdn.acme.com", category := some "Analytics" })] } ∧
    ("Acme" : String) = "Acme" ∧
    "acme" = exampleCollaborators.normalizeCompanyName "Acme" :=
  ⟨by decide,
   (identity_key_invariant exampleCollaborators [acmePixel, acmeLib] "Acme"
      { name := some "Acme Corporation", displayName := "Acme", prevalence := 5,
        normalizedName := "acme",
        urls := [("acme.com", { url := "acme.com", category := some "Advertising" }),
                 ("cdn.acme.com", { url := "cdn.acme.com", category := some "Analytics" })] }
      (by decide)).1,
   (identity_key_invariant exampleCollaborators [acmePixel, acmeLib] "Acme"
      { name := some "Acme Corporation", displayName := "Acme", prevalence := 5,
        normalizedName := "acme",
        urls := [("acme.com", { url := "acme.com", category := some "Advertising" }),
                 ("cdn.acme.com", { url := "cdn.acme.com", category := some "Analytics" })] }
      (by decide)).2.1⟩

/-! ## The state as a code of the sign pattern -/

/-- C26: with protections enabled, two `RequestDetails` have the same state exactly when
they agree on each of `blockedCount() > 0`, `allowedSpecialCount() > 0` and
`allowedNonSpecialCount() > 0`; with protections disabled the state is the same whenever
they agree on the last two, whatever `blockedCount()` is; and each of the twelve states
is the state, for some `protectionsEnabled`, of the result of `createRequestDetails` for
some request list, whatever the collaborators are. -/
theorem state_encodes_sign_pattern :
    (∀ r1 r2 : RequestDetails, r1.state true = r2.state true ↔
      ((0 < r1.blockedCount ↔ 0 < r2.blockedCount) ∧
       (0 < r1.allowedSpecialCount ↔ 0 < r2.allowedSpecialCount) ∧
       (0 < r1.allowedNonSpecialCount ↔ 0 < r2.allowedNonSpecialCount))) ∧
    (∀ r1 r2 : RequestDetails,
      (0 < r1.allowedSpecialCount ↔ 0 < r2.allowedSpecialCount) →
      (0 < r1.allowedNonSpecialCount ↔ 0 < r2.allowedNonSpecialCount) →
      r1.state false = r2.state false) ∧
    (∀ st ∈ statesValues, ∃ (requests : List DetectedRequest) (p : Bool),
      ∀ (env : Collaborators) (s : List String), ∃ out,
        createRequestDetails env requests s = Except.ok out ∧ out.state p = st) := by
  refine ⟨?_, ?_, ?_⟩
  · intro r1 r2
    rw [state_eq_table r1, state_eq_table r2]
    constructor
    · intro h
      obtain ⟨hb, hs, hn⟩ := stateDecisionTable_true_injective _ _ _ _ _ _ h
      exact ⟨(decide_pos_eq_iff _ _).1 hb, (decide_pos_eq_iff _ _).1 hs,
        (decide_pos_eq_iff _ _).1 hn⟩
    · rintro ⟨hb, hs, hn⟩
      rw [(decide_pos_eq_iff _ _).2 hb, (decide_pos_eq_iff _ _).2 hs,
        (decide_pos_eq_iff _ _).2 hn]
  · intro r1 r2 hs hn
    rw [state_eq_table r1, state_eq_table r2, (decide_pos_eq_iff _ _).2 hs,
      (decide_pos_eq_iff _ _).2 hn]
    exact stateDecisionTable_false_blocked _ _ _ _
  · intro st hst
    have key : ∀ b s n p : Bool, st = stateDecisionTable p b s n →
        ∃ (requests : List DetectedRequest) (p : Bool),
          ∀ (env : Collaborators) (sur : List String), ∃ out,
            createRequestDetails env requests sur = Except.ok out ∧ out.state p = st := by
      intro b s n p hst
      refine ⟨patternRequests b s n, p, fun env sur => ?_⟩
      obtain ⟨out, h1, h2⟩ := createRequestDetails_pattern env sur b s n p
      exact ⟨out, h1, h2.trans hst.symm⟩
    simp only [statesValues, List.mem_cons, List.mem_singleton, List.not_mem_nil,
      or_false] at hst
    rcases hst with h | h | h | h | h | h | h | h | h | h | h | h
    · exact key false false false true h
    · exact key true false false true h
    · exact key true true false true h
    · exact key true false true true h
    · exact key true true true true h
    · exact key false true false true h
    · exact key false false true true h
    · exact key false true true true h
    · exact key false false false false h
    · exact key false true false false h
    · exact key false false true false h
    · exact key false true true false h

/-! ## Order of the requests -/

/-- C27: for every request list and every permutation of it, `createRequestDetails`
has the same outcome up to order: when it returns a result for the list it returns one
for the permutation, with the same `entitiesCount`, the same `requestCount` and the
same set of entity keys in every bucket, hence the same `blockedCount()`,
`allowedSpecialCount()`, `allowedNonSpecialCount()` and the same `state(p)` for both
values of `p`; and when it raises for the list it raises for the permutation. -/
theorem summary_order_independent (env : Collaborators)
    (requests permuted : List DetectedRequest) (s : List String)
    (hp : requests.Perm permuted) :
    (∀ out, createRequestDetails env requests s = Except.ok out →
      ∃ out1, createRequestDetails env permuted s = Except.ok out1 ∧
        SameSummaries out out1 ∧
        out.blockedCount = out1.blockedCount ∧
        out.allowedSpecialCount = out1.allowedSpecialCount ∧
        out.allowedNonSpecialCount = out1.allowedNonSpecialCount ∧
        ∀ p, out.state p = out1.state p) ∧
    (∀ e, createRequestDetails env requests s = Except.error e →
      createRequestDetails env permuted s = Except.error e) := by
  obtain ⟨hok, herr⟩ := createRequestDetails_perm env requests permuted s hp
  refine ⟨?_, herr⟩
  intro out h
  obtain ⟨out1, h1, hsame⟩ := hok out h
  exact ⟨out1, h1, hsame, sameSummaries_counts out out1 hsame⟩

/-- Witness for C27: the requests `acmePixel` and `blockedTracker` in both orders; the
entity keys of `blocked` come in different orders and the summary is the same. -/
theorem summary_order_independent_witness :
    [acmePixel, blockedTracker].Perm [blockedTracker, acmePixel] ∧
    (createRequestDetails exampleCollaborators [acmePixel, blockedTracker] []).toOption.map
      (fun o => o.blocked.entities.map Prod.fst) = some ["Acme", "tracker.example"] ∧
    (createRequestDetails exampleCollaborators [blockedTracker, acmePixel] []).toOption.map
      (fun o => o.blocked.entities.map Prod.fst) = some ["tracker.example", "Acme"] ∧
    (∀ out, createRequestDetails exampleCollaborators [acmePixel, blockedTracker] [] =
        Except.ok out →
      ∃ out1, createRequestDetails exampleCollaborators [blockedTracker, acmePixel] [] =
          Except.ok out1 ∧ ∀ p, out.state p = out1.state p) :=
  ⟨List.Perm.swap _ _ _, by decide, by decide, fun out h =>
    (((summary_order_independent exampleCollaborators [acmePixel, blockedTracker]
      [blockedTracker, acmePixel] [] (List.Perm.swap _ _ _)).1 out h).imp
      (fun _ h1 => ⟨h1.1, h1.2.2.2.2.2⟩))⟩

/-! ## Counters and urls of a reached bucket -/

/-- C28: the code leaves an entity without a url where the claim promises at least one.
When the url `__proto__` does not parse, one call of `addRequest` on a fresh bucket
reaches a bucket with `entitiesCount` 1 and `requestCount` 1 whose entity `example.net`
has no entry in its `urls`, because `urls["__proto__"] = …` stores no own entry. -/
theorem reached_entity_without_url (env : Collaborators)
    (h : env.urlHostname "__proto__" = none) :
    (addRequestCalls env AggregatedCompanyResponseData.fresh [protoUrl]).entitiesCount = 1 ∧
    (addRequestCalls env AggregatedCompanyResponseData.fresh [protoUrl]).requestCount = 1 ∧
    (addRequestCalls env AggregatedCompanyResponseData.fresh [protoUrl]).entities.map
      (fun p => (p.1, p.2.urls.length)) = [("example.net", 0)] := by
  have hu : urlHostnameOf env protoUrl = "__proto__" := by
    simp only [urlHostnameOf, protoUrl, h]
    decide
  have hk : displayNameOf env protoUrl = "example.net" := by
    simp [displayNameOf, protoUrl, strTruthy]
  have hcall : addRequestCalls env AggregatedCompanyResponseData.fresh [protoUrl] =
      addRequestCall env AggregatedCompanyResponseData.fresh protoUrl := rfl
  rw [hcall, addRequestCall_fresh env protoUrl (by rw [hk]; decide), hu, hk]
  refine ⟨rfl, rfl, ?_⟩
  simp [AggregateCompanyData.addUrl, AggregateCompanyData.new, propSet]

/-- Witness for C28: with the example collaborators the url `__proto__` does not parse. -/
theorem reached_entity_without_url_witness :
    exampleCollaborators.urlHostname "__proto__" = none ∧
    (addRequestCalls exampleCollaborators AggregatedCompanyResponseData.fresh
      [protoUrl]).entities.map (fun p => (p.1, p.2.urls.length)) = [("example.net", 0)] :=
  ⟨by decide, (reached_entity_without_url exampleCollaborators (by decide)).2.2⟩

end PrivacyDashboard
